import Mathlib

/-!
Verification development for the `playwrap` repository: a shallow embedding of
its TypeScript helper modules (stepSequenceHelper, tabDataHelper,
frameworkDataHelper, browserHelper, requestHelper, testDataHelper) together
with theorems settling the frozen claims about them.

Modelling conventions used throughout:
- JavaScript arrays are Lean lists; `arr[i]` is `jsAt` (returning `none` for
  `undefined`), `arr[i] = v` within bounds is `jsSet`, `Array.prototype.splice(i, 1)`
  is `jsEraseIdx` (a no-op when `i` is out of bounds, as in JS), and
  `Array.prototype.indexOf` is `jsIndexOf` (with `none` standing for `-1`).
- Arrays that the source writes at arbitrary indices (creating holes) are
  `List (Option α)`; `jsWrite` pads with `none` holes exactly as JS assignment
  beyond the current length does, and `jsRead` reads a hole or an
  out-of-bounds index as `undefined` (`none`).
- A JavaScript `Map<string, β>` is an association list in insertion order;
  `Map.prototype.set` (`mapPut`) overwrites the value of an existing key in
  place and appends a fresh key at the end, as in JS.
- Code that can throw is `Except`: `.error` is a thrown error / failed
  expect-assertion (which fails the enclosing test step).
-/

/-- JS `arr[i]`: `some` element, or `none` for `undefined` (out of bounds). -/
def jsAt {α : Type} : List α → Nat → Option α
  | [], _ => none
  | a :: _, 0 => some a
  | _ :: l, n + 1 => jsAt l n

/-- JS `arr[i] = v` for an index known to be in bounds (no-op otherwise). -/
def jsSet {α : Type} : List α → Nat → α → List α
  | [], _, _ => []
  | _ :: l, 0, x => x :: l
  | a :: l, n + 1, x => a :: jsSet l n x

/-- JS `Array.prototype.splice(i, 1)`: removes the element at `i`; a no-op
when `i` is out of bounds, as in JS. -/
def jsEraseIdx {α : Type} : List α → Nat → List α
  | [], _ => []
  | _ :: l, 0 => l
  | a :: l, n + 1 => a :: jsEraseIdx l n

/-- JS `Array.prototype.indexOf`: index of the first occurrence, `none` for `-1`. -/
def jsIndexOf {α : Type} [DecidableEq α] (a : α) : List α → Option Nat
  | [] => none
  | b :: l => if b = a then some 0 else (jsIndexOf a l).map (· + 1)

/-- Read from a JS array that may contain holes: `undefined` is `none`. -/
def jsRead {α : Type} (l : List (Option α)) (i : Nat) : Option α :=
  (jsAt l i).getD none

/-- JS assignment `arr[i] = v` on an array that may grow: pads with
`undefined` holes when `i` is beyond the current length, as JS does. -/
def jsWrite {α : Type} (l : List (Option α)) (i : Nat) (v : α) : List (Option α) :=
  if i < l.length then jsSet l i (some v)
  else l ++ List.replicate (i - l.length) none ++ [some v]

/-- JS `Map.prototype.set`: overwrite an existing key in place, or append. -/
def mapPut {β : Type} (k : String) (v : β) : List (String × β) → List (String × β)
  | [] => [(k, v)]
  | (k', v') :: rest => if k' = k then (k', v) :: rest else (k', v') :: mapPut k v rest

/-- JS `Map.prototype.get`: value of the first (unique) matching key. -/
def mapGet {β : Type} (k : String) : List (String × β) → Option β
  | [] => none
  | (k', v') :: rest => if k' = k then some v' else mapGet k rest

/-- Whether an `Except` computation succeeded. -/
def isOkE {ε α : Type} : Except ε α → Bool
  | .ok _ => true
  | .error _ => false

/-! ### Basic lemmas about the JS array primitives -/

theorem jsAt_jsSet_self {α : Type} (l : List α) (i : Nat) (x : α)
    (h : i < l.length) : jsAt (jsSet l i x) i = some x := by
  induction l generalizing i with
  | nil => simp at h
  | cons a t ih =>
    cases i with
    | zero => simp [jsSet, jsAt]
    | succ n =>
      simp only [jsSet, jsAt]
      exact ih n (by simpa using h)

theorem jsSet_length {α : Type} (l : List α) (i : Nat) (x : α) :
    (jsSet l i x).length = l.length := by
  induction l generalizing i with
  | nil => simp [jsSet]
  | cons a t ih =>
    cases i with
    | zero => simp [jsSet]
    | succ n => simp [jsSet, ih]

theorem jsAt_jsSet_ne {α : Type} (l : List α) (i j : Nat) (x : α)
    (h : i ≠ j) : jsAt (jsSet l i x) j = jsAt l j := by
  induction l generalizing i j with
  | nil => simp [jsSet]
  | cons a t ih =>
    cases i with
    | zero =>
      cases j with
      | zero => exact absurd rfl h
      | succ m => simp [jsSet, jsAt]
    | succ n =>
      cases j with
      | zero => simp [jsSet, jsAt]
      | succ m =>
        simp only [jsSet, jsAt]
        exact ih n m (fun hnm => h (by rw [hnm]))

theorem jsRead_jsWrite_self {α : Type} (l : List (Option α)) (i : Nat) (v : α) :
    jsRead (jsWrite l i v) i = some v := by
  unfold jsWrite
  by_cases h : i < l.length
  · simp only [h, if_true, jsRead, jsAt_jsSet_self l i (some v) h, Option.getD]
  · simp only [h, if_false, jsRead]
    have hi : i = l.length + (i - l.length) := by omega
    have key : ∀ (l' : List (Option α)) (k : Nat),
        jsAt (l' ++ List.replicate k none ++ [some v]) (l'.length + k) = some (some v) := by
      intro l' k
      induction l' with
      | nil =>
        simp only [List.nil_append, List.length_nil, Nat.zero_add]
        induction k with
        | zero => simp [jsAt]
        | succ m ihm => simpa [List.replicate_succ, jsAt] using ihm
      | cons a t iht => simpa [List.length_cons, Nat.succ_add, jsAt] using iht
    rw [hi]
    simp only [Nat.add_sub_cancel_left]
    rw [key l (i - l.length)]
    rfl

/-! ## testDataHelper (src/src/data/testDataHelper.ts, first module)

The test-data store `testData : Map<string, string[]>` with `pushTestData`,
`getTestData` and `resetTestData`. -/

namespace TestDataHelper

/-- The test-data store: a JS `Map<string, string[]>` in insertion order. -/
abbrev TestData := List (String × List String)

/-- Source `pushTestData(key, value)`: appends `value` to the array for `key`,
creating the array first when the key is absent. -/
def pushTestData (key value : String) (m : TestData) : TestData :=
  match mapGet key m with
  | none => mapPut key [value] m
  | some values => mapPut key (values ++ [value]) m

/-- Source `getTestData(key, index)`: throws when the key is absent, the index
is out of bounds, or the stored value is falsy (the empty string). -/
def getTestData (key : String) (index : Nat) (m : TestData) : Except String String :=
  match mapGet key m with
  | none => .error "No test data found"
  | some values =>
    match jsAt values index with
    | none => .error "No test data found"
    | some v => if v = "" then .error "No test data found" else .ok v

/-- Source `resetTestData()`: clears the map. -/
def resetTestData (_ : TestData) : TestData := []

/-- A sequence of `pushTestData` calls applied in order. -/
def applyPushes (ps : List (String × String)) (m : TestData) : TestData :=
  ps.foldl (fun acc p => pushTestData p.1 p.2 acc) m

end TestDataHelper

/-! ## stepSequenceHelper (src/unnamed/part_001)

The promise chain `stepSequence`, `addStep`, the `testFilePath` regex and
`getTestCallRowInStack`.

Modelling conventions for this module:
- A stack trace is a list of rows (`Row`, a list of characters): the result of
  splitting the stack string on a newline.  Rows therefore contain no newline,
  so a substring test against a newline-free needle (`import.meta.url`) on the
  joined string is equivalent to a row-wise substring test, and
  `String.prototype.replace` of one full row by another is row-wise
  replacement of the first equal row (the source only performs it under the
  guard that exactly one row matches the `testFilePath` regex, where the two
  coincide; see the comments at `catchCallback`).
- `error.stack` may be `undefined`; the source's truthiness test
  `error.stack && myError.stack` also rejects the empty string, so `none`
  stands for an absent-or-empty stack and `some rows` for a non-empty one.
- Promise semantics are denotational: a chain outcome is either resolved or
  rejected with a value.  Rejection values distinguish the step's own `Error`
  (`RejVal.err`), a non-`Error` rejection value (`RejVal.nonErr`), and an
  `Error` thrown by `getTestCallRowInStack` inside the catch callback itself
  (`RejVal.internal`); the latter is a fresh `Error`, so later catch callbacks
  rethrow it and later steps never run — its stack contents are not modelled
  because no claim inspects them.
- `test.step(title, callback)` runs the callback and propagates its outcome;
  the title has no effect on the chain. -/

namespace StepSequenceHelper

/-- One row of a stack trace (no newline characters). -/
abbrev Row := List Char

/-- Matching the tail `[0-9]+:[0-9]+` of the `testFilePath` regex at the start
of `v` (with arbitrary text allowed after): a non-empty digit run, a colon,
and at least one digit.  Backtracking cannot help: any viable split puts the
colon right after the maximal digit prefix. -/
def digitsColonDigit (v : Row) : Bool :=
  match v.span Char.isDigit with
  | (d, ':' :: c :: _) => !d.isEmpty && c.isDigit
  | _ => false

/-- Matching `.spec.ts:[0-9]+:[0-9]+` where each `.` is the regex any-char:
an arbitrary character, `spec`, an arbitrary character, `ts:`, then
`digitsColonDigit`. -/
def specTail (u : Row) : Bool :=
  match u with
  | 's' :: 'p' :: 'e' :: 'c' :: _ :: 't' :: 's' :: ':' :: v => digitsColonDigit v
  | _ => false

/-- Matching `.+.spec.ts:[0-9]+:[0-9]+` against `rest` (the text after the
separator): at least two arbitrary characters (`.+` and the `.` before
`spec`), then `specTail`. -/
def afterSep (rest : Row) : Bool :=
  (List.range (rest.length + 1)).any fun i =>
    decide (2 ≤ i) && specTail (List.drop i rest)

/-- Source regex `testFilePath = /(\\|\/).+.spec.ts:[0-9]+:[0-9]+/` applied
with `.test(row)`: does any position of the row start a match?  A match is a
separator (`\` or `/`) followed by `afterSep`. -/
def testFilePathTest (row : Row) : Bool :=
  (List.range row.length).any fun i =>
    match List.drop i row with
    | c :: rest => (c == '/' || c == '\\') && afterSep rest
    | [] => false

/-- JS `String.prototype.startsWith` on rows. -/
def rowStartsWith : Row → Row → Bool
  | [], _ => true
  | _ :: _, [] => false
  | c :: cs, d :: ds => c == d && rowStartsWith cs ds

/-- JS `String.prototype.includes` on rows: `needle` occurs in `hay`. -/
def containsRow (needle : Row) : Row → Bool
  | [] => needle.isEmpty
  | d :: ds => rowStartsWith needle (d :: ds) || containsRow needle ds

/-- Source `getTestCallRowInStack(callStack)`: the unique row matching
`testFilePath`; throws when there are zero or several matching rows. -/
def getTestCallRowInStack (callStack : List Row) : Except String Row :=
  match callStack.filter testFilePathTest with
  | [] => .error "Found 0 rows matching testFilePath"
  | [r] => .ok r
  | _ :: _ :: _ => .error "Found multiple rows matching testFilePath"

/-- A JavaScript `Error` object: an identity (to state that the propagated
error is the same object) and its mutable `stack`. -/
structure JsError where
  id : Nat
  stack : Option (List Row)
deriving DecidableEq

/-- What a step's callback does when it runs. -/
inductive StepBehavior
  | ok
  | throwErr (e : JsError)
  | throwNonErr
deriving DecidableEq

/-- A promise rejection value, as distinguished by the catch callback. -/
inductive RejVal
  | err (e : JsError)
  | nonErr
  | internal
deriving DecidableEq

/-- The settled outcome of the chain after some prefix of steps. -/
inductive ChainOutcome
  | resolved
  | rejected (v : RejVal)
deriving DecidableEq

/-- Source `error.stack.includes(import.meta.url)` on a split stack: some row
contains the URL (the URL contains no newline, so no occurrence straddles
rows). -/
def stackIncludes (rows : List Row) (url : Row) : Bool :=
  rows.any fun r => containsRow url r

/-- Row-wise rendering of `replace(promiseAwaitRow, stepCallRow)`: replace the
first row equal to `target` by `repl`.  Under the guard at the call site
exactly one row of the stack contains `target` (a row containing it would
itself match `testFilePath`, and the guard enforced uniqueness), and that row
equals `target`, so this coincides with the string-level first-occurrence
replacement performed by the source. -/
def replaceFirstEq (rows : List Row) (target repl : Row) : List Row :=
  match rows with
  | [] => []
  | r :: rs => if r = target then repl :: rs else r :: replaceFirstEq rs target repl

/-- The stack-rewriting line of `addStep`'s catch callback:
`error.stack.replace(promiseAwaitRow, stepCallRow).split("\n").filter(row => !row.includes(import.meta.url)).join("\n")`. -/
def rewriteStack (helperUrl : Row) (es : List Row) (promiseRow stepRow : Row) : List Row :=
  (replaceFirstEq es promiseRow stepRow).filter fun r => !containsRow helperUrl r

/-- The catch callback installed by `addStep` (lines 100-117 of the source),
applied to a rejection value.  `myStack` is `myError.stack` captured when
`addStep` ran; `helperUrl` is `import.meta.url`.  A non-`Error` rejection is
swallowed (the callback returns `undefined`, resolving the chain); an `Error`
is rethrown, with its stack rewritten when both stacks are truthy, the error's
stack mentions the helper module and the captured stack has a `testFilePath`
row; a throw of `getTestCallRowInStack` inside the callback rejects the chain
with that fresh error (`RejVal.internal`). -/
def catchCallback (helperUrl : Row) (myStack : Option (List Row)) : RejVal → ChainOutcome
  | .nonErr => .resolved
  | .internal => .rejected .internal
  | .err e =>
    match e.stack, myStack with
    | some es, some ms =>
      if stackIncludes es helperUrl && ms.any testFilePathTest then
        match getTestCallRowInStack ms with
        | .error _ => .rejected .internal
        | .ok stepRow =>
          match getTestCallRowInStack es with
          | .error _ => .rejected .internal
          | .ok promiseRow =>
            .rejected (.err ⟨e.id, some (rewriteStack helperUrl es promiseRow stepRow)⟩)
      else .rejected (.err e)
    | _, _ => .rejected (.err e)

/-- One `addStep` registration: the callback's behavior and `myError.stack`
captured at the registration site. -/
structure AddedStep where
  behavior : StepBehavior
  myStack : Option (List Row)
deriving DecidableEq

/-- One link `stepSequence.then(step).catch(handler)` of the chain: when the
prior outcome is resolved the callback runs (second component `true`) and the
catch processes any rejection it produces; when the prior outcome is rejected
the callback is skipped and the catch processes the propagated rejection. -/
def stepLink (helperUrl : Row) (st : ChainOutcome) (a : AddedStep) : ChainOutcome × Bool :=
  match st with
  | .resolved =>
    let afterThen : ChainOutcome :=
      match a.behavior with
      | .ok => .resolved
      | .throwErr e => .rejected (.err e)
      | .throwNonErr => .rejected .nonErr
    (match afterThen with
     | .resolved => .resolved
     | .rejected v => catchCallback helperUrl a.myStack v, true)
  | .rejected v => (catchCallback helperUrl a.myStack v, false)

/-- Running the chain from a given settled state: final outcome and, for each
step in order, whether its callback ran. -/
def runChainFrom (helperUrl : Row) (st : ChainOutcome) : List AddedStep → ChainOutcome × List Bool
  | [] => (st, [])
  | a :: rest =>
    let p := stepLink helperUrl st a
    let q := runChainFrom helperUrl p.1 rest
    (q.1, p.2 :: q.2)

/-- Awaiting `stepSequence` after the given sequence of `addStep` calls, from
the initial `Promise.resolve()`. -/
def runChain (helperUrl : Row) (steps : List AddedStep) : ChainOutcome × List Bool :=
  runChainFrom helperUrl .resolved steps

end StepSequenceHelper

/-! ## tabDataHelper (src/src/data/testDataHelper.ts, second module)

`pageTypes : string[][]` and its accessors.  An inner array is
`List (Option String)` because the source assigns at arbitrary tab indices
(`contextPageTypes(contextIndex)[tabIndex] = ...`), which can create holes; the
outer array never has holes (it only grows by `push([])` and shrinks by
`splice`).  Index arguments are `Option Nat`, `none` standing for the
JavaScript `-1` produced by a failed `indexOf` at the call sites:
`pageTypes[-1]` is `undefined` (so `contextPageTypes` throws), while an inner
assignment at `-1` creates a non-index property and leaves the tracked array
unchanged. -/

namespace TabDataHelper

/-- The `pageTypes` store: page types for all tabs in all contexts. -/
abbrev PageTypes := List (List (Option String))

/-- Source `contextPageTypes(contextIndex)`: the inner array, throwing when
`pageTypes[contextIndex]` is `undefined`. -/
def contextPageTypes (pts : PageTypes) (c : Option Nat) : Except String (List (Option String)) :=
  match c with
  | none => .error "No page types found for context index -1"
  | some ci =>
    match jsAt pts ci with
    | none => .error "No page types found for context index"
    | some l => .ok l

/-- Source `pageType(contextIndex, tabIndex)`: read one tab's page type
(`none` is JS `undefined`). -/
def pageType (pts : PageTypes) (c : Option Nat) (t : Nat) : Except String (Option String) :=
  match contextPageTypes pts c with
  | .error m => .error m
  | .ok l => .ok (jsRead l t)

/-- Source `updatePageType(contextIndex, tabIndex, pageType)`:
`contextPageTypes(contextIndex)[tabIndex] = pageType`.  A `-1` tab index
(`t = none`) sets a non-index property: the tracked array is unchanged. -/
def updatePageType (pts : PageTypes) (c t : Option Nat) (v : String) : Except String PageTypes :=
  match c with
  | none => .error "No page types found for context index -1"
  | some ci =>
    match jsAt pts ci with
    | none => .error "No page types found for context index"
    | some row =>
      match t with
      | none => .ok pts
      | some ti => .ok (jsSet pts ci (jsWrite row ti v))

/-- Source `initializeContextPageTypes()`: `pageTypes.push(new Array())`. -/
def initContextPageTypes (pts : PageTypes) : PageTypes := pts ++ [[]]

/-- Source `initializePageType(contextIndex, tabIndex)`: sets `"Blank"`. -/
def initPageType (pts : PageTypes) (c t : Option Nat) : Except String PageTypes :=
  updatePageType pts c t "Blank"

/-- Source `removeContextPageTypes(contextIndex)`: `pageTypes.splice(contextIndex, 1)`. -/
def removeContextPageTypes (pts : PageTypes) (c : Nat) : PageTypes := jsEraseIdx pts c

/-- Source `resetPageTypes()`: `pageTypes.length = 0`. -/
def resetPageTypes (_ : PageTypes) : PageTypes := []

end TabDataHelper

/-! ## frameworkDataHelper + browserHelper
(src/src/data/frameworkDataHelper.ts, src/src/channel/browserHelper.ts)

The browser is modelled as the state the helpers can observe: the list of
open contexts (`browser.contexts()`), each a list of open pages
(`context.pages()`), pages being identified by the `Nat` id they received from
a fresh-id counter when created.  `workingTab` is the id of the focused page
(`none` before a first tab exists, standing for the `undefined` of
`let workingTab: Page`).  Playwright removes a closed page from
`context.pages()` and a closed context from `browser.contexts()`, which
`closeTab` / `closeContext` rely on.

Each `browserHelper` operation is one registered step body; its result is
`Except (String × BrowserState) BrowserState`, a thrown error carrying the
state at the moment of the throw (so that a guard failing before any mutation
provably leaves the state unchanged).  `errorListener.attachTo` and
`console.log` do not touch this state and are omitted. -/

namespace BrowserHelper

/-- The observable browser state plus the tracked `pageTypes`. -/
structure BrowserState where
  contexts : List (List Nat)
  pageTypes : TabDataHelper.PageTypes
  workingTab : Option Nat
  nextId : Nat
deriving DecidableEq

/-- Result of one step body: a throw carries the state at the throw. -/
abbrev BResult := Except (String × BrowserState) BrowserState

/-- Index of the first context (page list) containing the page `w`:
`browser.contexts().indexOf(workingTab.context())` in the source, where a
page's context is the context whose page list holds it. -/
def findCtxIdx (w : Nat) : List (List Nat) → Option Nat
  | [] => none
  | ctx :: rest => if w ∈ ctx then some 0 else (findCtxIdx w rest).map (· + 1)

/-- The index of the context containing the working tab together with the
index of the working tab within it: `workingContextIndex()` and
`workingTabIndex()` in the source, with `none` for their `-1`.  (The two are
`-1` together: a closed working tab is impossible because the close
operations guard against it.) -/
def workingPos (s : BrowserState) : Option (Nat × Nat) :=
  match s.workingTab with
  | none => none
  | some w =>
    match findCtxIdx w s.contexts with
    | none => none
    | some ci =>
      match jsIndexOf w ((jsAt s.contexts ci).getD []) with
      | none => none
      | some ti => some (ci, ti)

/-- Source `workingContextIndex()`. -/
def workingContextIndex (s : BrowserState) : Option Nat := (workingPos s).map (·.1)

/-- Source `workingTabIndex()`. -/
def workingTabIndex (s : BrowserState) : Option Nat := (workingPos s).map (·.2)

/-- Source `latestContextIndex()`: `browser.contexts().length - 1` (an `Int`:
`-1` when no context is open). -/
def latestContextIndex (s : BrowserState) : Int := (s.contexts.length : Int) - 1

/-- Source `frameworkDataHelper.getContext(contextIndex)`. -/
def getContextE (s : BrowserState) (c : Nat) : Except String (List Nat) :=
  match jsAt s.contexts c with
  | none => .error "Context does not exist"
  | some ctx => .ok ctx

/-- `getContext` applied to a possibly `-1` index. -/
def getContextO (s : BrowserState) (c : Option Nat) : Except String (List Nat) :=
  match c with
  | none => .error "Context does not exist"
  | some ci => getContextE s ci

/-- Source `latestTabIndex(contextIndex)`: `getContext(contextIndex).pages().length - 1`. -/
def latestTabIndexO (s : BrowserState) (c : Option Nat) : Except String Int :=
  match getContextO s c with
  | .error m => .error m
  | .ok ctx => .ok ((ctx.length : Int) - 1)

/-- A JS index as an array subscript: negative numbers subscript nothing. -/
def intToIdx (i : Int) : Option Nat :=
  if i < 0 then none else some i.toNat

/-- Source `frameworkDataHelper.getPage(contextIndex, pageIndex)` (with
possibly `-1` indices). -/
def getPageO (s : BrowserState) (c t : Option Nat) : Except String Nat :=
  match getContextO s c with
  | .error m => .error m
  | .ok ctx =>
    match t with
    | none => .error "Page does not exist"
    | some ti =>
      match jsAt ctx ti with
      | none => .error "Page does not exist"
      | some p => .ok p

/-- The tail of `openNewTabInCurrentContext` after the new page exists
(`s1` is the state with the page appended to the working context):
`initializePageType(workingContextIndex(), latestTabIndex(workingContextIndex()))`
followed by
`updateWorkingTab(workingContextIndex(), latestTabIndex(workingContextIndex()))`. -/
def openTabFinish (s1 : BrowserState) : BResult :=
  match latestTabIndexO s1 (workingContextIndex s1) with
  | .error m => .error (m, s1)
  | .ok lt =>
    match TabDataHelper.initPageType s1.pageTypes (workingContextIndex s1) (intToIdx lt) with
    | .error m => .error (m, s1)
    | .ok pts2 =>
      let s2 : BrowserState := ⟨s1.contexts, pts2, s1.workingTab, s1.nextId⟩
      match latestTabIndexO s2 (workingContextIndex s2) with
      | .error m => .error (m, s2)
      | .ok lt2 =>
        match getPageO s2 (workingContextIndex s2) (intToIdx lt2) with
        | .error m => .error (m, s2)
        | .ok p => .ok ⟨s2.contexts, s2.pageTypes, some p, s2.nextId⟩

/-- Source `openNewTabInCurrentContext(currentPageType)` step body:
tag the current working tab, create a page in the working context, tag the new
tab `"Blank"`, and focus it. -/
def openNewTabInCurrentContext (pt : String) (s : BrowserState) : BResult :=
  match TabDataHelper.updatePageType s.pageTypes (workingContextIndex s) (workingTabIndex s) pt with
  | .error m => .error (m, s)
  | .ok pts1 =>
    match workingPos s with
    | none => .error ("TypeError: workingTab is undefined", s)
    | some (ci, _) =>
      openTabFinish
        ⟨jsSet s.contexts ci (((jsAt s.contexts ci).getD []) ++ [s.nextId]), pts1,
          s.workingTab, s.nextId + 1⟩

/-- The tail of `openNewTabInNewContext` after the new context and page exist
(`s1` is the state with the new one-page context and the pushed page-type
array): `initializePageType(latestContextIndex(), 0)` followed by
`updateWorkingTab(latestContextIndex(), 0)`. -/
def newContextFinish (s1 : BrowserState) : BResult :=
  match TabDataHelper.initPageType s1.pageTypes (intToIdx (latestContextIndex s1)) (some 0) with
  | .error m => .error (m, s1)
  | .ok pts2 =>
    let s2 : BrowserState := ⟨s1.contexts, pts2, s1.workingTab, s1.nextId⟩
    match getPageO s2 (intToIdx (latestContextIndex s2)) (some 0) with
    | .error m => .error (m, s2)
    | .ok p => .ok ⟨s2.contexts, s2.pageTypes, some p, s2.nextId⟩

/-- Source `openNewTabInNewContext(openAuthenticatedContextCb?, currentPageType?)`
step body: optionally tag the current working tab (skipped for an absent or
empty — falsy — page type), create a context with one page, push a fresh
page-type array, tag the new tab `"Blank"`, and focus it. -/
def openNewTabInNewContext (pt? : Option String) (s : BrowserState) : BResult :=
  let step1 : Except String TabDataHelper.PageTypes :=
    match pt? with
    | some pt =>
      if pt ≠ "" then
        TabDataHelper.updatePageType s.pageTypes (workingContextIndex s) (workingTabIndex s) pt
      else .ok s.pageTypes
    | none => .ok s.pageTypes
  match step1 with
  | .error m => .error (m, s)
  | .ok pts1 =>
    newContextFinish
      ⟨s.contexts ++ [[s.nextId]], TabDataHelper.initContextPageTypes pts1,
        s.workingTab, s.nextId + 1⟩

/-- Source `switchWorkingTab(contextIndex, tabIndex, currentPageType, nextPageType)`
step body, with its four guards in source order. -/
def switchWorkingTab (c t : Nat) (cur next : String) (s : BrowserState) : BResult :=
  if latestContextIndex s < (c : Int) then .error ("Context not found", s)
  else
    match latestTabIndexO s (some c) with
    | .error m => .error (m, s)
    | .ok lt =>
      if lt < (t : Int) then .error ("Tab not found", s)
      else
        if workingContextIndex s = some c ∧ workingTabIndex s = some t then
          .error ("Already working on tab", s)
        else
          match TabDataHelper.pageType s.pageTypes (some c) t with
          | .error m => .error (m, s)
          | .ok actual =>
            if actual ≠ some next then .error ("expected page type to be nextPageType", s)
            else
              match TabDataHelper.updatePageType s.pageTypes (workingContextIndex s)
                  (workingTabIndex s) cur with
              | .error m => .error (m, s)
              | .ok pts1 =>
                match getPageO ⟨s.contexts, pts1, s.workingTab, s.nextId⟩ (some c) (some t) with
                | .error m => .error (m, ⟨s.contexts, pts1, s.workingTab, s.nextId⟩)
                | .ok p => .ok ⟨s.contexts, pts1, some p, s.nextId⟩

/-- Source `closeContext(contextIndex)` step body: guards, then closes every
page and the context itself and splices out its page types. -/
def closeContext (c : Nat) (s : BrowserState) : BResult :=
  match getContextE s c with
  | .error m => .error (m, s)
  | .ok _ =>
    if workingContextIndex s = some c then
      .error ("Context is the Working Context. It cannot be closed", s)
    else
      .ok ⟨jsEraseIdx s.contexts c, TabDataHelper.removeContextPageTypes s.pageTypes c,
        s.workingTab, s.nextId⟩

/-- Source `closeTab(contextIndex, tabIndex)` step body: guards, then closes
the page — and splices out the whole context's page types. -/
def closeTab (c t : Nat) (s : BrowserState) : BResult :=
  match getPageO s (some c) (some t) with
  | .error m => .error (m, s)
  | .ok _ =>
    if workingContextIndex s = some c ∧ workingTabIndex s = some t then
      .error ("Tab is the Working Tab. It cannot be closed", s)
    else
      .ok ⟨jsSet s.contexts c (jsEraseIdx ((jsAt s.contexts c).getD []) t),
        TabDataHelper.removeContextPageTypes s.pageTypes c, s.workingTab, s.nextId⟩

/-- One `browserHelper` operation, for describing operation sequences. -/
inductive BOp
  | openCurrent (pt : String)
  | openNew (pt? : Option String)
  | switchTab (c t : Nat) (cur next : String)
  | closeCtx (c : Nat)
  | closeOneTab (c t : Nat)
deriving DecidableEq

/-- Apply one operation. -/
def applyBOp : BOp → BrowserState → BResult
  | .openCurrent pt, s => openNewTabInCurrentContext pt s
  | .openNew pt?, s => openNewTabInNewContext pt? s
  | .switchTab c t cur next, s => switchWorkingTab c t cur next s
  | .closeCtx c, s => closeContext c s
  | .closeOneTab c t, s => closeTab c t s

/-- Run a sequence of operations, stopping at the first failing step (a failed
step rejects the chain, so later step bodies do not run). -/
def runBOps : List BOp → BrowserState → BResult
  | [], s => .ok s
  | op :: rest, s =>
    match applyBOp op s with
    | .error e => .error e
    | .ok s' => runBOps rest s'

/-- The state at the start of a test: no contexts, no page types, no working
tab (`resetPageTypes` has run and no tab has been opened). -/
def initialBrowserState : BrowserState := ⟨[], [], none, 0⟩

/-- The page type recorded for tab `t` of context `c`, as a total read
(`none` when the record is missing for any reason). -/
def readPageType (s : BrowserState) (c t : Nat) : Option String :=
  jsRead ((jsAt s.pageTypes c).getD []) t

/-- Does every open tab carry a defined page-type tag?  (The invariant of the
spec sentence about recording a page type for each open tab.) -/
def allTabsTagged (s : BrowserState) : Bool :=
  (List.range s.contexts.length).all fun c =>
    (List.range ((jsAt s.contexts c).getD []).length).all fun t =>
      (readPageType s c t).isSome

end BrowserHelper

/-! ## requestHelper (src/unnamed/part_000)

Persistent and throw-away API request contexts, their per-context extra
headers, and the focused request context.  Request contexts are identified by
fresh `Nat` ids; `workingRequestContext` is `none` for the initial
`let workingRequestContext: APIRequestContext;` (`undefined`).  The two
header arrays are written at arbitrary indices (`headers[i] ??= new Map()`),
so they are hole-carrying arrays of maps. -/

namespace RequestHelper

/-- A `Map<string, string>` of extra headers in insertion order. -/
abbrev Headers := List (String × String)

/-- The module-level state of requestHelper. -/
structure ReqState where
  requestContexts : List Nat
  throwAwayContexts : List Nat
  requestContextsExtraHeaders : List (Option Headers)
  throwAwayContextsExtraHeaders : List (Option Headers)
  workingRequestContext : Option Nat
  nextId : Nat
deriving DecidableEq

/-- Source `workingRequestContextIndex()`:
`requestContexts.indexOf(workingRequestContext)` (`none` for `-1`, including
when the focused context is a throw-away one or not yet set). -/
def workingRequestContextIndex (s : ReqState) : Option Nat :=
  match s.workingRequestContext with
  | none => none
  | some w => jsIndexOf w s.requestContexts

/-- `throwAwayContexts.indexOf(workingRequestContext)` (`none` for `-1`). -/
def throwAwayIndex (s : ReqState) : Option Nat :=
  match s.workingRequestContext with
  | none => none
  | some w => jsIndexOf w s.throwAwayContexts

/-- Source `updateWorkingRequestContext(requestContextIndex)`: look the
context up and focus it, throwing when absent. -/
def updateWorkingRequestContext (i : Nat) (s : ReqState) : Except String ReqState :=
  match jsAt s.requestContexts i with
  | none => .error "Request Context not found"
  | some rc =>
    .ok ⟨s.requestContexts, s.throwAwayContexts, s.requestContextsExtraHeaders,
      s.throwAwayContextsExtraHeaders, some rc, s.nextId⟩

/-- Source `putExtraHeader(key, value)`: add or update a header of the
focused context; silently does nothing when the focused context is in neither
array. -/
def putExtraHeader (k v : String) (s : ReqState) : ReqState :=
  match workingRequestContextIndex s with
  | some i =>
    let m := (jsRead s.requestContextsExtraHeaders i).getD []
    ⟨s.requestContexts, s.throwAwayContexts,
      jsWrite s.requestContextsExtraHeaders i (mapPut k v m),
      s.throwAwayContextsExtraHeaders, s.workingRequestContext, s.nextId⟩
  | none =>
    match throwAwayIndex s with
    | some j =>
      let m := (jsRead s.throwAwayContextsExtraHeaders j).getD []
      ⟨s.requestContexts, s.throwAwayContexts, s.requestContextsExtraHeaders,
        jsWrite s.throwAwayContextsExtraHeaders j (mapPut k v m),
        s.workingRequestContext, s.nextId⟩
    | none => s

/-- Source `getExtraHeaders()`: the headers of the focused context as an
object (`none` for `undefined` when absent or empty), throwing when the
focused context is in neither array. -/
def getExtraHeaders (s : ReqState) : Except String (Option Headers) :=
  match workingRequestContextIndex s with
  | some i =>
    .ok (match jsRead s.requestContextsExtraHeaders i with
         | none => none
         | some m => if m.isEmpty then none else some m)
  | none =>
    match throwAwayIndex s with
    | some j =>
      .ok (match jsRead s.throwAwayContextsExtraHeaders j with
           | none => none
           | some m => if m.isEmpty then none else some m)
    | none => .error "Could not find workingRequestContext Extra Headers"

/-- Source `openNewContext(openNewContextCb?)` step body: push a persistent
context and focus it via `updateWorkingRequestContext`. -/
def openNewContext (s : ReqState) : Except String ReqState :=
  let s1 : ReqState :=
    ⟨s.requestContexts ++ [s.nextId], s.throwAwayContexts, s.requestContextsExtraHeaders,
      s.throwAwayContextsExtraHeaders, s.workingRequestContext, s.nextId + 1⟩
  updateWorkingRequestContext (s1.requestContexts.length - 1) s1

/-- Source `openNewThrowAwayContext()` step body: push a throw-away context
and focus it directly. -/
def openNewThrowAwayContext (s : ReqState) : ReqState :=
  ⟨s.requestContexts, s.throwAwayContexts ++ [s.nextId], s.requestContextsExtraHeaders,
    s.throwAwayContextsExtraHeaders, some s.nextId, s.nextId + 1⟩

/-- Source `switchWorkingContext(requestContextIndex)` step body: the two
expect-guards in source order, then `updateWorkingRequestContext`. -/
def switchWorkingContext (i : Nat) (s : ReqState) : Except String ReqState :=
  if ¬(i < s.requestContexts.length) then .error "Context not found"
  else if workingRequestContextIndex s = some i then .error "Already working on context"
  else updateWorkingRequestContext i s

end RequestHelper

/-! ## Supporting lemmas and claim theorems -/

theorem jsAt_none_of_len_le {α : Type} (l : List α) (i : Nat) (h : l.length ≤ i) :
    jsAt l i = none := by
  induction l generalizing i with
  | nil => cases i <;> rfl
  | cons a t ih =>
    cases i with
    | zero => simp at h
    | succ n => exact ih n (by simpa using h)

theorem mapGet_mapPut_self {β : Type} (k : String) (v : β) (m : List (String × β)) :
    mapGet k (mapPut k v m) = some v := by
  induction m with
  | nil => simp [mapPut, mapGet]
  | cons p rest ih =>
    obtain ⟨k', v'⟩ := p
    by_cases h : k' = k
    · simp [mapPut, mapGet, h]
    · simp [mapPut, mapGet, h, ih]

theorem mapGet_mapPut_ne {β : Type} (k k' : String) (v : β) (m : List (String × β))
    (h : k' ≠ k) : mapGet k' (mapPut k v m) = mapGet k' m := by
  induction m with
  | nil =>
    have hne : ¬k = k' := fun hh => h hh.symm
    simp [mapPut, mapGet, hne]
  | cons p rest ih =>
    obtain ⟨k₀, v₀⟩ := p
    by_cases h0 : k₀ = k
    · subst h0
      have hne : ¬k₀ = k' := fun hh => h hh.symm
      simp [mapPut, mapGet, hne]
    · by_cases h1 : k₀ = k'
      · simp [mapPut, mapGet, h0, h1, h]
      · simp [mapPut, mapGet, h0, h1, ih]

namespace TestDataHelper

theorem mapGet_push_self (k v : String) (m : TestData) :
    mapGet k (pushTestData k v m) = some ((mapGet k m).getD [] ++ [v]) := by
  unfold pushTestData
  cases h : mapGet k m with
  | none => simp [h, mapGet_mapPut_self]
  | some values => simp [h, mapGet_mapPut_self]

theorem mapGet_push_ne (k k' v : String) (m : TestData) (h : k' ≠ k) :
    mapGet k' (pushTestData k v m) = mapGet k' m := by
  unfold pushTestData
  cases hg : mapGet k m with
  | none => simp [mapGet_mapPut_ne _ _ _ _ h]
  | some values => simp [mapGet_mapPut_ne _ _ _ _ h]

/-- The values pushed under `key`, in push order. -/
def pushedValues (ps : List (String × String)) (k : String) : List String :=
  (ps.filter fun p => decide (p.1 = k)).map Prod.snd

theorem pushedValues_nil (k : String) : pushedValues [] k = [] := rfl

theorem pushedValues_cons (k₀ v₀ k : String) (rest : List (String × String)) :
    pushedValues ((k₀, v₀) :: rest) k =
      if k₀ = k then v₀ :: pushedValues rest k else pushedValues rest k := by
  by_cases h : k₀ = k <;> simp [pushedValues, List.filter, h]

theorem applyPushes_cons (p : String × String) (rest : List (String × String)) (m : TestData) :
    applyPushes (p :: rest) m = applyPushes rest (pushTestData p.1 p.2 m) := rfl

theorem mapGet_applyPushes (k : String) :
    ∀ (ps : List (String × String)) (m : TestData),
      mapGet k (applyPushes ps m) =
        if pushedValues ps k = [] then mapGet k m
        else some ((mapGet k m).getD [] ++ pushedValues ps k) := by
  intro ps
  induction ps with
  | nil => intro m; simp [applyPushes, pushedValues_nil]
  | cons p rest ih =>
    intro m
    obtain ⟨k₀, v₀⟩ := p
    rw [applyPushes_cons, ih]
    by_cases h : k₀ = k
    · subst h
      have hpv : pushedValues ((k₀, v₀) :: rest) k₀ = v₀ :: pushedValues rest k₀ := by
        rw [pushedValues_cons, if_pos rfl]
      rw [hpv, mapGet_push_self]
      by_cases hv : pushedValues rest k₀ = []
      · rw [if_pos hv, if_neg (List.cons_ne_nil _ _), hv]
      · rw [if_neg hv, if_neg (List.cons_ne_nil _ _)]
        simp [List.append_assoc]
    · have hpv : pushedValues ((k₀, v₀) :: rest) k = pushedValues rest k := by
        rw [pushedValues_cons, if_neg h]
      rw [hpv, mapGet_push_ne _ _ _ _ (fun hh => h hh.symm)]

end TestDataHelper

/-- Claim C8: `getTestData(key, index)` returns the `index`-th value pushed
under `key` when it is a non-empty string, and throws when the key was never
pushed, when the index is out of bounds for the pushed values, or when the
value at that index is the empty string (an empty pushed string is
unretrievable). -/
theorem c8_getTestData_roundtrip (ps : List (String × String)) (k : String) (i : Nat) :
    (TestDataHelper.pushedValues ps k = [] →
      ∃ msg, TestDataHelper.getTestData k i (TestDataHelper.applyPushes ps []) = .error msg) ∧
    (∀ v, jsAt (TestDataHelper.pushedValues ps k) i = some v → v ≠ "" →
      TestDataHelper.getTestData k i (TestDataHelper.applyPushes ps []) = .ok v) ∧
    ((TestDataHelper.pushedValues ps k).length ≤ i →
      ∃ msg, TestDataHelper.getTestData k i (TestDataHelper.applyPushes ps []) = .error msg) ∧
    (jsAt (TestDataHelper.pushedValues ps k) i = some "" →
      ∃ msg, TestDataHelper.getTestData k i (TestDataHelper.applyPushes ps []) = .error msg) := by
  have hget := TestDataHelper.mapGet_applyPushes k ps []
  refine ⟨?_, ?_, ?_, ?_⟩
  · intro hnil
    rw [if_pos hnil] at hget
    refine ⟨"No test data found", ?_⟩
    unfold TestDataHelper.getTestData
    rw [hget]
    rfl
  · intro v hv hne
    have hnil : TestDataHelper.pushedValues ps k ≠ [] := by
      intro hc
      rw [hc] at hv
      cases i <;> simp [jsAt] at hv
    rw [if_neg hnil] at hget
    unfold TestDataHelper.getTestData
    rw [hget]
    simp only [mapGet, Option.getD, List.nil_append]
    rw [hv]
    simp [hne]
  · intro hlen
    by_cases hnil : TestDataHelper.pushedValues ps k = []
    · rw [if_pos hnil] at hget
      refine ⟨"No test data found", ?_⟩
      unfold TestDataHelper.getTestData
      rw [hget]
      rfl
    · rw [if_neg hnil] at hget
      refine ⟨"No test data found", ?_⟩
      unfold TestDataHelper.getTestData
      rw [hget]
      simp only [mapGet, Option.getD, List.nil_append]
      rw [jsAt_none_of_len_le _ _ hlen]
  · intro hv
    have hnil : TestDataHelper.pushedValues ps k ≠ [] := by
      intro hc
      rw [hc] at hv
      cases i <;> simp [jsAt] at hv
    rw [if_neg hnil] at hget
    refine ⟨"No test data found", ?_⟩
    unfold TestDataHelper.getTestData
    rw [hget]
    simp only [mapGet, Option.getD, List.nil_append]
    rw [hv]
    simp

/-- Witness for C8: a concrete push sequence, retrieving the first value
pushed under a key and failing on an empty pushed value. -/
theorem c8_getTestData_roundtrip_witness :
    TestDataHelper.getTestData "user" 0
      (TestDataHelper.applyPushes [("user", "alice"), ("pass", "x"), ("user", "")] []) =
      .ok "alice" :=
  (c8_getTestData_roundtrip [("user", "alice"), ("pass", "x"), ("user", "")] "user" 0).2.1
    "alice" (by decide) (by decide)

theorem jsAt_lt_some {α : Type} (l : List α) (i : Nat) (h : i < l.length) :
    ∃ x, jsAt l i = some x := by
  induction l generalizing i with
  | nil => simp at h
  | cons a t ih =>
    cases i with
    | zero => exact ⟨a, rfl⟩
    | succ n => exact ih n (by simpa using h)

theorem jsAt_mem {α : Type} (l : List α) (i : Nat) (x : α) (h : jsAt l i = some x) :
    x ∈ l := by
  induction l generalizing i with
  | nil => cases i <;> simp [jsAt] at h
  | cons a t ih =>
    cases i with
    | zero =>
      simp only [jsAt, Option.some.injEq] at h
      exact h ▸ List.mem_cons_self a t
    | succ n => exact List.mem_cons_of_mem a (ih n h)

theorem mapPut_isEmpty_false {β : Type} (k : String) (v : β) (m : List (String × β)) :
    (mapPut k v m).isEmpty = false := by
  cases m with
  | nil => rfl
  | cons p rest =>
    obtain ⟨k', v'⟩ := p
    by_cases h : k' = k <;> simp [mapPut, h]

/-- Claim C7: `switchWorkingContext(i)` fails when `i` is not less than the
number of persistent request contexts or when `i` is the index of the
currently focused persistent context; otherwise it focuses the persistent
context at index `i`.  A successful switch always focuses a persistent
context, so a throw-away context (disjoint from the persistent ones by fresh
ids) can never be re-focused through it. -/
theorem c7_switchWorkingContext_spec (s : RequestHelper.ReqState) (i : Nat) :
    (s.requestContexts.length ≤ i →
      isOkE (RequestHelper.switchWorkingContext i s) = false) ∧
    (RequestHelper.workingRequestContextIndex s = some i →
      isOkE (RequestHelper.switchWorkingContext i s) = false) ∧
    (i < s.requestContexts.length →
      RequestHelper.workingRequestContextIndex s ≠ some i →
      RequestHelper.switchWorkingContext i s =
        .ok ⟨s.requestContexts, s.throwAwayContexts, s.requestContextsExtraHeaders,
          s.throwAwayContextsExtraHeaders, jsAt s.requestContexts i, s.nextId⟩) ∧
    (∀ s' a, RequestHelper.switchWorkingContext i s = .ok s' →
      a ∈ s.throwAwayContexts → a ∉ s.requestContexts →
      s'.workingRequestContext ≠ some a) := by
  refine ⟨?_, ?_, ?_, ?_⟩
  · intro hle
    unfold RequestHelper.switchWorkingContext
    rw [if_pos (by omega)]
    rfl
  · intro hw
    unfold RequestHelper.switchWorkingContext
    by_cases hlen : i < s.requestContexts.length
    · rw [if_neg (fun hc => hc hlen), if_pos hw]
      rfl
    · rw [if_pos hlen]
      rfl
  · intro hlt hne
    unfold RequestHelper.switchWorkingContext
    rw [if_neg (fun hc => hc hlt), if_neg hne]
    unfold RequestHelper.updateWorkingRequestContext
    obtain ⟨x, hx⟩ := jsAt_lt_some _ _ hlt
    rw [hx]
  · intro s' a hok ha hna hcon
    unfold RequestHelper.switchWorkingContext at hok
    by_cases hlen : i < s.requestContexts.length
    · rw [if_neg (fun hc => hc hlen)] at hok
      by_cases hw : RequestHelper.workingRequestContextIndex s = some i
      · rw [if_pos hw] at hok
        exact Except.noConfusion hok
      · rw [if_neg hw] at hok
        unfold RequestHelper.updateWorkingRequestContext at hok
        cases hx : jsAt s.requestContexts i with
        | none =>
          rw [hx] at hok
          exact Except.noConfusion hok
        | some rc =>
          rw [hx] at hok
          cases hok
          simp only [Option.some.injEq] at hcon
          exact hna (hcon ▸ jsAt_mem _ _ _ hx)
    · rw [if_pos hlen] at hok
      exact Except.noConfusion hok

/-- Witness for C7: with persistent contexts `[10, 20]` (focused `10`) and
throw-away context `[30]`, switching to index `2` fails and switching to
index `1` focuses context `20`. -/
theorem c7_switchWorkingContext_spec_witness :
    isOkE (RequestHelper.switchWorkingContext 2 ⟨[10, 20], [30], [], [], some 10, 31⟩) = false ∧
    RequestHelper.switchWorkingContext 1 ⟨[10, 20], [30], [], [], some 10, 31⟩ =
      .ok ⟨[10, 20], [30], [], [], jsAt [10, 20] 1, 31⟩ :=
  ⟨(c7_switchWorkingContext_spec ⟨[10, 20], [30], [], [], some 10, 31⟩ 2).1 (by decide),
    (c7_switchWorkingContext_spec ⟨[10, 20], [30], [], [], some 10, 31⟩ 1).2.2.1 (by decide)
      (by decide)⟩

/-- Claim C9: after `putExtraHeader(k, v)` while a context is focused (found
in the persistent or the throw-away array), `getExtraHeaders()` returns an
object mapping `k` to `v` — a later put of the same key overwrites, since the
conclusion holds for every prior state — and `getExtraHeaders()` returns
`undefined` when no header was ever put for the focused context (its headers
slot is still unset). -/
theorem c9_extraHeaders_roundtrip (s : RequestHelper.ReqState) (k v : String) :
    (∀ i, RequestHelper.workingRequestContextIndex s = some i →
      RequestHelper.getExtraHeaders (RequestHelper.putExtraHeader k v s) =
        .ok (some (mapPut k v ((jsRead s.requestContextsExtraHeaders i).getD []))) ∧
      mapGet k (mapPut k v ((jsRead s.requestContextsExtraHeaders i).getD [])) = some v) ∧
    (∀ j, RequestHelper.workingRequestContextIndex s = none →
      RequestHelper.throwAwayIndex s = some j →
      RequestHelper.getExtraHeaders (RequestHelper.putExtraHeader k v s) =
        .ok (some (mapPut k v ((jsRead s.throwAwayContextsExtraHeaders j).getD []))) ∧
      mapGet k (mapPut k v ((jsRead s.throwAwayContextsExtraHeaders j).getD [])) = some v) ∧
    (∀ i, RequestHelper.workingRequestContextIndex s = some i →
      jsRead s.requestContextsExtraHeaders i = none →
      RequestHelper.getExtraHeaders s = .ok none) ∧
    (∀ j, RequestHelper.workingRequestContextIndex s = none →
      RequestHelper.throwAwayIndex s = some j →
      jsRead s.throwAwayContextsExtraHeaders j = none →
      RequestHelper.getExtraHeaders s = .ok none) := by
  obtain ⟨req, twa, A, B, w, n⟩ := s
  refine ⟨?_, ?_, ?_, ?_⟩
  · intro i hw
    refine ⟨?_, mapGet_mapPut_self _ _ _⟩
    simp only [RequestHelper.putExtraHeader, hw]
    have hw2 : RequestHelper.workingRequestContextIndex
        ⟨req, twa, jsWrite A i (mapPut k v ((jsRead A i).getD [])), B, w, n⟩ = some i := hw
    simp only [RequestHelper.getExtraHeaders, hw2, jsRead_jsWrite_self, mapPut_isEmpty_false]
    rfl
  · intro j hw ht
    refine ⟨?_, mapGet_mapPut_self _ _ _⟩
    simp only [RequestHelper.putExtraHeader, hw, ht]
    have hw2 : RequestHelper.workingRequestContextIndex
        ⟨req, twa, A, jsWrite B j (mapPut k v ((jsRead B j).getD [])), w, n⟩ = none := hw
    have ht2 : RequestHelper.throwAwayIndex
        ⟨req, twa, A, jsWrite B j (mapPut k v ((jsRead B j).getD [])), w, n⟩ = some j := ht
    simp only [RequestHelper.getExtraHeaders, hw2, ht2, jsRead_jsWrite_self,
      mapPut_isEmpty_false]
    rfl
  · intro i hw hempty
    simp only [RequestHelper.getExtraHeaders, hw, hempty]
  · intro j hw ht hempty
    simp only [RequestHelper.getExtraHeaders, hw, ht, hempty]

/-- Witness for C9: a persistent context `5` is focused with no header ever
put; `getExtraHeaders` is `undefined`, and after `putExtraHeader("a", "b")`
it returns an object with `a` mapped to `b`. -/
theorem c9_extraHeaders_roundtrip_witness :
    RequestHelper.getExtraHeaders ⟨[5], [], [], [], some 5, 6⟩ = .ok none ∧
    RequestHelper.getExtraHeaders
        (RequestHelper.putExtraHeader "a" "b" ⟨[5], [], [], [], some 5, 6⟩) =
      .ok (some (mapPut "a" "b" ((jsRead ([] : List (Option RequestHelper.Headers)) 0).getD []))) ∧
    mapGet "a" (mapPut "a" "b"
        ((jsRead ([] : List (Option RequestHelper.Headers)) 0).getD [])) = some "b" :=
  ⟨(c9_extraHeaders_roundtrip ⟨[5], [], [], [], some 5, 6⟩ "a" "b").2.2.1 0 (by decide) rfl,
    ((c9_extraHeaders_roundtrip ⟨[5], [], [], [], some 5, 6⟩ "a" "b").1 0 (by decide)).1,
    ((c9_extraHeaders_roundtrip ⟨[5], [], [], [], some 5, 6⟩ "a" "b").1 0 (by decide)).2⟩

/-! ### Lemmas about the working-tab position -/

theorem findCtxIdx_some (w : Nat) (l : List (List Nat)) (ci : Nat)
    (h : BrowserHelper.findCtxIdx w l = some ci) :
    ∃ ctx, jsAt l ci = some ctx ∧ w ∈ ctx := by
  induction l generalizing ci with
  | nil => simp [BrowserHelper.findCtxIdx] at h
  | cons ctx rest ih =>
    by_cases hw : w ∈ ctx
    · simp only [BrowserHelper.findCtxIdx, if_pos hw, Option.some.injEq] at h
      exact ⟨ctx, h ▸ rfl, hw⟩
    · simp only [BrowserHelper.findCtxIdx, if_neg hw] at h
      cases hfind : BrowserHelper.findCtxIdx w rest with
      | none => rw [hfind] at h; simp at h
      | some m =>
        rw [hfind] at h
        simp only [Option.map_some', Option.some.injEq] at h
        obtain ⟨ctx', h1, h2⟩ := ih m hfind
        exact ⟨ctx', by rw [← h]; exact h1, h2⟩

theorem jsIndexOf_jsAt {α : Type} [DecidableEq α] (a : α) (l : List α) (i : Nat)
    (h : jsIndexOf a l = some i) : jsAt l i = some a := by
  induction l generalizing i with
  | nil => simp [jsIndexOf] at h
  | cons b rest ih =>
    by_cases hb : b = a
    · simp only [jsIndexOf, if_pos hb, Option.some.injEq] at h
      rw [← h]
      simp [jsAt, hb]
    · simp only [jsIndexOf, if_neg hb] at h
      cases hfind : jsIndexOf a rest with
      | none => rw [hfind] at h; simp at h
      | some m =>
        rw [hfind] at h
        simp only [Option.map_some', Option.some.injEq] at h
        rw [← h]
        exact ih m hfind

theorem workingPos_parts (s : BrowserHelper.BrowserState) (ci ti : Nat)
    (h : BrowserHelper.workingPos s = some (ci, ti)) :
    ∃ w ctx, s.workingTab = some w ∧ jsAt s.contexts ci = some ctx ∧ jsAt ctx ti = some w := by
  unfold BrowserHelper.workingPos at h
  cases hw : s.workingTab with
  | none => rw [hw] at h; simp at h
  | some w =>
    rw [hw] at h
    simp only [] at h
    cases hf : BrowserHelper.findCtxIdx w s.contexts with
    | none => rw [hf] at h; simp at h
    | some ci' =>
      rw [hf] at h
      simp only [] at h
      cases hj : jsIndexOf w ((jsAt s.contexts ci').getD []) with
      | none => rw [hj] at h; simp at h
      | some ti' =>
        rw [hj] at h
        simp only [Option.some.injEq, Prod.mk.injEq] at h
        obtain ⟨h1, h2⟩ := h
        subst h1
        subst h2
        obtain ⟨ctx, hctx, _⟩ := findCtxIdx_some w s.contexts ci' hf
        refine ⟨w, ctx, rfl, hctx, ?_⟩
        have hh := jsIndexOf_jsAt w ((jsAt s.contexts ci').getD []) ti' hj
        rw [hctx] at hh
        simpa using hh

theorem workingIdx_pair (s : BrowserHelper.BrowserState) (c t : Nat)
    (hc : BrowserHelper.workingContextIndex s = some c)
    (ht : BrowserHelper.workingTabIndex s = some t) :
    BrowserHelper.workingPos s = some (c, t) := by
  unfold BrowserHelper.workingContextIndex at hc
  unfold BrowserHelper.workingTabIndex at ht
  cases hp : BrowserHelper.workingPos s with
  | none => rw [hp] at hc; simp at hc
  | some p =>
    rw [hp] at hc ht
    simp only [Option.map_some', Option.some.injEq] at hc ht
    rw [← hc, ← ht]

/-- Claim C6: the guards of `closeContext` and `closeTab`.  `closeContext`
fails when no context exists at the index or when it is the working context;
`closeTab` fails when the target page does not exist or when it is the
working tab.  Every failure is raised before any mutation: the error carries
the unchanged state, so nothing is closed and the page-type records are
untouched. -/
theorem c6_close_guards (s : BrowserHelper.BrowserState) (c t : Nat) :
    (jsAt s.contexts c = none →
      BrowserHelper.closeContext c s = .error ("Context does not exist", s)) ∧
    (BrowserHelper.workingContextIndex s = some c →
      BrowserHelper.closeContext c s =
        .error ("Context is the Working Context. It cannot be closed", s)) ∧
    (jsAt s.contexts c = none →
      BrowserHelper.closeTab c t s = .error ("Context does not exist", s)) ∧
    (∀ ctx, jsAt s.contexts c = some ctx → jsAt ctx t = none →
      BrowserHelper.closeTab c t s = .error ("Page does not exist", s)) ∧
    (BrowserHelper.workingContextIndex s = some c →
      BrowserHelper.workingTabIndex s = some t →
      BrowserHelper.closeTab c t s =
        .error ("Tab is the Working Tab. It cannot be closed", s)) := by
  refine ⟨?_, ?_, ?_, ?_, ?_⟩
  · intro h
    unfold BrowserHelper.closeContext BrowserHelper.getContextE
    rw [h]
  · intro hw
    cases hp : BrowserHelper.workingPos s with
    | none =>
      unfold BrowserHelper.workingContextIndex at hw
      rw [hp] at hw
      simp at hw
    | some p =>
      obtain ⟨ci, ti⟩ := p
      have hci : ci = c := by
        unfold BrowserHelper.workingContextIndex at hw
        rw [hp] at hw
        simpa using hw
      subst hci
      obtain ⟨w, ctx, _, hctx, _⟩ := workingPos_parts s ci ti hp
      unfold BrowserHelper.closeContext BrowserHelper.getContextE
      simp only [hctx]
      rw [if_pos hw]
  · intro h
    unfold BrowserHelper.closeTab BrowserHelper.getPageO BrowserHelper.getContextO
      BrowserHelper.getContextE
    simp only [h]
  · intro ctx hctx hpage
    unfold BrowserHelper.closeTab BrowserHelper.getPageO BrowserHelper.getContextO
      BrowserHelper.getContextE
    simp only [hctx, hpage]
  · intro hc ht
    have hp := workingIdx_pair s c t hc ht
    obtain ⟨w, ctx, _, hctx, hpage⟩ := workingPos_parts s c t hp
    unfold BrowserHelper.closeTab BrowserHelper.getPageO BrowserHelper.getContextO
      BrowserHelper.getContextE
    simp only [hctx, hpage]
    rw [if_pos ⟨hc, ht⟩]

/-- Witness for C6: with two contexts, one page each, and the working tab at
`[0, 0]`, closing context `0` and closing tab `[0, 0]` both fail with the
state unchanged. -/
theorem c6_close_guards_witness :
    BrowserHelper.closeContext 0
        ⟨[[0], [1]], [[some "A"], [some "B"]], some 0, 2⟩ =
      .error ("Context is the Working Context. It cannot be closed",
        ⟨[[0], [1]], [[some "A"], [some "B"]], some 0, 2⟩) ∧
    BrowserHelper.closeTab 0 0
        ⟨[[0], [1]], [[some "A"], [some "B"]], some 0, 2⟩ =
      .error ("Tab is the Working Tab. It cannot be closed",
        ⟨[[0], [1]], [[some "A"], [some "B"]], some 0, 2⟩) :=
  ⟨(c6_close_guards ⟨[[0], [1]], [[some "A"], [some "B"]], some 0, 2⟩ 0 0).2.1 (by decide),
    (c6_close_guards ⟨[[0], [1]], [[some "A"], [some "B"]], some 0, 2⟩ 0 0).2.2.2.2
      (by decide) (by decide)⟩

/-- Claim C3 (code bug): the per-open-tab page-type invariant is broken by
`closeTab`, which calls `removeContextPageTypes(contextIndex)` and thereby
splices out the page types of the whole — still open — context.  Concretely:
open a context with one tab, open a second tab in it, close the first tab.
The step sequence completes, the context is still open with one tab (page id
`1` at index `[0, 0]`), but the page-type store is empty: `pageType(0, 0)`
throws instead of returning a defined string. -/
theorem c3_closeTab_erases_open_context_page_types :
    BrowserHelper.runBOps [.openNew none, .openCurrent "X", .closeOneTab 0 0]
        BrowserHelper.initialBrowserState = .ok ⟨[[1]], [], some 1, 2⟩ ∧
    BrowserHelper.allTabsTagged ⟨[[1]], [], some 1, 2⟩ = false ∧
    TabDataHelper.pageType ([] : TabDataHelper.PageTypes) (some 0) 0 =
      .error "No page types found for context index" :=
  ⟨rfl, rfl, rfl⟩

/-! ### Further list lemmas for the browser-state proofs -/

theorem jsAt_some_lt {α : Type} (l : List α) (i : Nat) (x : α) (h : jsAt l i = some x) :
    i < l.length := by
  induction l generalizing i with
  | nil => cases i <;> simp [jsAt] at h
  | cons a t ih =>
    cases i with
    | zero => simp
    | succ n => exact Nat.succ_lt_succ (ih n h)

theorem jsAt_append_len {α : Type} (l : List α) (x : α) : jsAt (l ++ [x]) l.length = some x := by
  induction l with
  | nil => rfl
  | cons a t ih => simpa [jsAt] using ih

theorem jsIndexOf_append_some {α : Type} [DecidableEq α] (a : α) (l l2 : List α) (i : Nat)
    (h : jsIndexOf a l = some i) : jsIndexOf a (l ++ l2) = some i := by
  induction l generalizing i with
  | nil => simp [jsIndexOf] at h
  | cons b t ih =>
    by_cases hb : b = a
    · simp only [jsIndexOf, if_pos hb, Option.some.injEq] at h
      simp [jsIndexOf, hb, h]
    · simp only [jsIndexOf, if_neg hb] at h
      cases hfind : jsIndexOf a t with
      | none => rw [hfind] at h; simp at h
      | some m =>
        rw [hfind] at h
        simp only [Option.map_some', Option.some.injEq] at h
        subst h
        have step : jsIndexOf a ((b :: t) ++ l2) = (jsIndexOf a (t ++ l2)).map (· + 1) := by
          simp [jsIndexOf, if_neg hb]
        rw [step, ih m hfind]
        rfl

theorem jsIndexOf_mem {α : Type} [DecidableEq α] (a : α) (l : List α) (i : Nat)
    (h : jsIndexOf a l = some i) : a ∈ l :=
  jsAt_mem l i a (jsIndexOf_jsAt a l i h)

theorem findCtxIdx_jsSet_mem (w : Nat) (l : List (List Nat)) (ci : Nat) (newctx : List Nat)
    (h : BrowserHelper.findCtxIdx w l = some ci) (hmem : w ∈ newctx) :
    BrowserHelper.findCtxIdx w (jsSet l ci newctx) = some ci := by
  induction l generalizing ci with
  | nil => simp [BrowserHelper.findCtxIdx] at h
  | cons ctx rest ih =>
    by_cases hw : w ∈ ctx
    · simp only [BrowserHelper.findCtxIdx, if_pos hw, Option.some.injEq] at h
      rw [← h]
      simp [jsSet, BrowserHelper.findCtxIdx, hmem]
    · simp only [BrowserHelper.findCtxIdx, if_neg hw] at h
      cases hfind : BrowserHelper.findCtxIdx w rest with
      | none => rw [hfind] at h; simp at h
      | some m =>
        rw [hfind] at h
        simp only [Option.map_some', Option.some.injEq] at h
        cases ci with
        | zero => simp at h
        | succ n =>
          have hn : m = n := by omega
          subst hn
          simp [jsSet, BrowserHelper.findCtxIdx, if_neg hw, ih m hfind]

/-- The last element of a JS array (`arr[arr.length - 1]`, the most recently
pushed element). -/
def lastElem {α : Type} : List α → Option α
  | [] => none
  | [a] => some a
  | _ :: b :: t => lastElem (b :: t)

theorem lastElem_append_single {α : Type} (l : List α) (x : α) :
    lastElem (l ++ [x]) = some x := by
  induction l with
  | nil => rfl
  | cons a t ih =>
    cases t with
    | nil => rfl
    | cons b t' => simpa [lastElem] using ih

theorem workingPos_invert (s : BrowserHelper.BrowserState) (ci ti : Nat)
    (h : BrowserHelper.workingPos s = some (ci, ti)) :
    ∃ w, s.workingTab = some w ∧ BrowserHelper.findCtxIdx w s.contexts = some ci ∧
      jsIndexOf w ((jsAt s.contexts ci).getD []) = some ti := by
  unfold BrowserHelper.workingPos at h
  cases hw : s.workingTab with
  | none => rw [hw] at h; simp at h
  | some w =>
    rw [hw] at h
    simp only [] at h
    cases hf : BrowserHelper.findCtxIdx w s.contexts with
    | none => rw [hf] at h; simp at h
    | some ci' =>
      rw [hf] at h
      simp only [] at h
      cases hj : jsIndexOf w ((jsAt s.contexts ci').getD []) with
      | none => rw [hj] at h; simp at h
      | some ti' =>
        rw [hj] at h
        simp only [Option.some.injEq, Prod.mk.injEq] at h
        obtain ⟨h1, h2⟩ := h
        subst h1
        subst h2
        exact ⟨w, rfl, hf, hj⟩

theorem getPageO_ok_invert (s : BrowserHelper.BrowserState) (c t : Nat) (p : Nat)
    (h : BrowserHelper.getPageO s (some c) (some t) = .ok p) :
    ∃ ctx, jsAt s.contexts c = some ctx ∧ jsAt ctx t = some p := by
  unfold BrowserHelper.getPageO BrowserHelper.getContextO BrowserHelper.getContextE at h
  simp only [] at h
  cases hc : jsAt s.contexts c with
  | none => rw [hc] at h; simp at h
  | some ctx =>
    rw [hc] at h
    simp only [] at h
    cases hp : jsAt ctx t with
    | none => rw [hp] at h; simp at h
    | some p' =>
      rw [hp] at h
      simp only [Except.ok.injEq] at h
      exact ⟨ctx, rfl, by rw [hp, h]⟩

theorem switchTab_ok_workingTab (s s' : BrowserHelper.BrowserState) (c t : Nat)
    (cur next : String) (hok : BrowserHelper.switchWorkingTab c t cur next s = .ok s') :
    ∃ ctx, jsAt s.contexts c = some ctx ∧ s'.workingTab = jsAt ctx t ∧
      s'.contexts = s.contexts := by
  unfold BrowserHelper.switchWorkingTab at hok
  by_cases h1 : BrowserHelper.latestContextIndex s < (c : Int)
  · rw [if_pos h1] at hok; exact Except.noConfusion hok
  · rw [if_neg h1] at hok
    cases h2 : BrowserHelper.latestTabIndexO s (some c) with
    | error m => rw [h2] at hok; exact Except.noConfusion hok
    | ok lt =>
      rw [h2] at hok
      simp only [] at hok
      by_cases h3 : lt < (t : Int)
      · rw [if_pos h3] at hok; exact Except.noConfusion hok
      · rw [if_neg h3] at hok
        by_cases h4 : BrowserHelper.workingContextIndex s = some c ∧
            BrowserHelper.workingTabIndex s = some t
        · rw [if_pos h4] at hok; exact Except.noConfusion hok
        · rw [if_neg h4] at hok
          cases h5 : TabDataHelper.pageType s.pageTypes (some c) t with
          | error m => rw [h5] at hok; exact Except.noConfusion hok
          | ok actual =>
            rw [h5] at hok
            simp only [] at hok
            by_cases h6 : actual ≠ some next
            · rw [if_pos h6] at hok; exact Except.noConfusion hok
            · rw [if_neg h6] at hok
              cases h7 : TabDataHelper.updatePageType s.pageTypes
                  (BrowserHelper.workingContextIndex s)
                  (BrowserHelper.workingTabIndex s) cur with
              | error m => rw [h7] at hok; exact Except.noConfusion hok
              | ok pts1 =>
                rw [h7] at hok
                simp only [] at hok
                cases h8 : BrowserHelper.getPageO ⟨s.contexts, pts1, s.workingTab, s.nextId⟩
                    (some c) (some t) with
                | error m => rw [h8] at hok; exact Except.noConfusion hok
                | ok p =>
                  rw [h8] at hok
                  cases hok
                  obtain ⟨ctx, hctx, hpage⟩ := getPageO_ok_invert _ c t p h8
                  exact ⟨ctx, hctx, by rw [hpage], rfl⟩

theorem jsAt_length_sub_one {α : Type} (l : List α) (h : l ≠ []) :
    jsAt l (l.length - 1) = lastElem l := by
  induction l with
  | nil => exact absurd rfl h
  | cons a t ih =>
    cases t with
    | nil => rfl
    | cons b t' => simpa [jsAt, lastElem] using ih (by simp)

theorem openTabFinish_ok (s1 s' : BrowserHelper.BrowserState) (ci ti : Nat) (ctxF : List Nat)
    (hwp : BrowserHelper.workingPos s1 = some (ci, ti))
    (hctxF : jsAt s1.contexts ci = some ctxF) (hne : ctxF ≠ [])
    (hok : BrowserHelper.openTabFinish s1 = .ok s') :
    s'.contexts = s1.contexts ∧ s'.workingTab = lastElem ctxF := by
  have hwci : BrowserHelper.workingContextIndex s1 = some ci := by
    unfold BrowserHelper.workingContextIndex
    rw [hwp]
    rfl
  have hLpos : 0 < ctxF.length := List.length_pos.mpr hne
  unfold BrowserHelper.openTabFinish at hok
  rw [hwci] at hok
  unfold BrowserHelper.latestTabIndexO BrowserHelper.getContextO BrowserHelper.getContextE at hok
  simp only [] at hok
  rw [hctxF] at hok
  simp only [] at hok
  have hidx : BrowserHelper.intToIdx ((ctxF.length : Int) - 1) = some (ctxF.length - 1) := by
    unfold BrowserHelper.intToIdx
    rw [if_neg (by omega)]
    congr 1
    omega
  rw [hidx] at hok
  unfold TabDataHelper.initPageType TabDataHelper.updatePageType at hok
  simp only [] at hok
  cases hrow : jsAt s1.pageTypes ci with
  | none => rw [hrow] at hok; exact Except.noConfusion hok
  | some row =>
    rw [hrow] at hok
    simp only [] at hok
    have hwci2 : BrowserHelper.workingContextIndex
        ⟨s1.contexts, jsSet s1.pageTypes ci (jsWrite row (ctxF.length - 1) "Blank"),
          s1.workingTab, s1.nextId⟩ = some ci := hwci
    rw [hwci2] at hok
    simp only [] at hok
    rw [hctxF] at hok
    simp only [] at hok
    rw [hidx] at hok
    unfold BrowserHelper.getPageO BrowserHelper.getContextO BrowserHelper.getContextE at hok
    simp only [] at hok
    rw [hctxF] at hok
    simp only [] at hok
    obtain ⟨pl, hpl⟩ := jsAt_lt_some ctxF (ctxF.length - 1) (by omega)
    rw [hpl] at hok
    cases hok
    refine ⟨rfl, ?_⟩
    show some pl = lastElem ctxF
    rw [← jsAt_length_sub_one ctxF hne, hpl]

theorem openCurrent_ok_workingTab (s s' : BrowserHelper.BrowserState) (pt : String)
    (hok : BrowserHelper.openNewTabInCurrentContext pt s = .ok s') :
    ∃ ci ti, BrowserHelper.workingPos s = some (ci, ti) ∧
      jsAt s'.contexts ci = some (((jsAt s.contexts ci).getD []) ++ [s.nextId]) ∧
      s'.workingTab = lastElem (((jsAt s.contexts ci).getD []) ++ [s.nextId]) := by
  unfold BrowserHelper.openNewTabInCurrentContext at hok
  cases h1 : TabDataHelper.updatePageType s.pageTypes (BrowserHelper.workingContextIndex s)
      (BrowserHelper.workingTabIndex s) pt with
  | error m => rw [h1] at hok; exact Except.noConfusion hok
  | ok pts1 =>
    rw [h1] at hok
    simp only [] at hok
    cases hp : BrowserHelper.workingPos s with
    | none => rw [hp] at hok; exact Except.noConfusion hok
    | some cit =>
      obtain ⟨ci, ti⟩ := cit
      rw [hp] at hok
      simp only [] at hok
      obtain ⟨w, hw, hf, hj⟩ := workingPos_invert s ci ti hp
      have hwmem : w ∈ (jsAt s.contexts ci).getD [] := jsIndexOf_mem _ _ _ hj
      obtain ⟨ctxO, hctxO, _⟩ := findCtxIdx_some w s.contexts ci hf
      have hcilt : ci < s.contexts.length := jsAt_some_lt _ _ _ hctxO
      have hat1 : jsAt (jsSet s.contexts ci (((jsAt s.contexts ci).getD []) ++ [s.nextId])) ci =
          some (((jsAt s.contexts ci).getD []) ++ [s.nextId]) :=
        jsAt_jsSet_self _ _ _ hcilt
      have hwp1 : BrowserHelper.workingPos
          ⟨jsSet s.contexts ci (((jsAt s.contexts ci).getD []) ++ [s.nextId]), pts1,
            s.workingTab, s.nextId + 1⟩ = some (ci, ti) := by
        unfold BrowserHelper.workingPos
        simp only []
        rw [hw]
        simp only []
        rw [findCtxIdx_jsSet_mem w s.contexts ci _ hf (List.mem_append_left _ hwmem)]
        simp only []
        rw [hat1]
        simp only [Option.getD_some]
        rw [jsIndexOf_append_some w _ _ ti hj]
      obtain ⟨hceq, hwt⟩ := openTabFinish_ok _ s' ci ti _ hwp1 hat1 (by simp) hok
      exact ⟨ci, ti, rfl, by rw [hceq]; exact hat1, hwt⟩

theorem newContextFinish_ok (s1 s' : BrowserHelper.BrowserState)
    (hok : BrowserHelper.newContextFinish s1 = .ok s') :
    s'.contexts = s1.contexts ∧
    (∃ ctxL, jsAt s1.contexts (s1.contexts.length - 1) = some ctxL ∧
      s'.workingTab = jsAt ctxL 0) ∧
    BrowserHelper.readPageType s' (s'.contexts.length - 1) 0 = some "Blank" := by
  unfold BrowserHelper.newContextFinish at hok
  by_cases hc : s1.contexts = []
  · unfold BrowserHelper.latestContextIndex at hok
    rw [hc] at hok
    simp [BrowserHelper.intToIdx, TabDataHelper.initPageType,
      TabDataHelper.updatePageType] at hok
  · have hL : 0 < s1.contexts.length := List.length_pos.mpr hc
    have hidx : BrowserHelper.intToIdx (BrowserHelper.latestContextIndex s1) =
        some (s1.contexts.length - 1) := by
      unfold BrowserHelper.intToIdx BrowserHelper.latestContextIndex
      rw [if_neg (by omega)]
      congr 1
      omega
    rw [hidx] at hok
    unfold TabDataHelper.initPageType TabDataHelper.updatePageType at hok
    simp only [] at hok
    cases hrow : jsAt s1.pageTypes (s1.contexts.length - 1) with
    | none => rw [hrow] at hok; exact Except.noConfusion hok
    | some row =>
      rw [hrow] at hok
      simp only [] at hok
      have hidx2 : BrowserHelper.intToIdx (BrowserHelper.latestContextIndex
          ⟨s1.contexts, jsSet s1.pageTypes (s1.contexts.length - 1) (jsWrite row 0 "Blank"),
            s1.workingTab, s1.nextId⟩) = some (s1.contexts.length - 1) := hidx
      rw [hidx2] at hok
      unfold BrowserHelper.getPageO BrowserHelper.getContextO BrowserHelper.getContextE at hok
      simp only [] at hok
      obtain ⟨ctxL, hctxL⟩ := jsAt_lt_some s1.contexts (s1.contexts.length - 1) (by omega)
      rw [hctxL] at hok
      simp only [] at hok
      cases hp0 : jsAt ctxL 0 with
      | none => rw [hp0] at hok; exact Except.noConfusion hok
      | some p =>
        rw [hp0] at hok
        cases hok
        refine ⟨rfl, ⟨ctxL, hctxL, by rw [hp0]⟩, ?_⟩
        unfold BrowserHelper.readPageType
        have hlen : s1.contexts.length - 1 < s1.pageTypes.length := jsAt_some_lt _ _ _ hrow
        rw [show jsAt (jsSet s1.pageTypes (s1.contexts.length - 1) (jsWrite row 0 "Blank"))
            (s1.contexts.length - 1) = some (jsWrite row 0 "Blank") from
          jsAt_jsSet_self _ _ _ hlen]
        simp only [Option.getD_some]
        exact jsRead_jsWrite_self row 0 "Blank"

theorem openNew_ok_workingTab (s s' : BrowserHelper.BrowserState) (pt? : Option String)
    (hok : BrowserHelper.openNewTabInNewContext pt? s = .ok s') :
    ∃ ctxL, lastElem s'.contexts = some ctxL ∧ s'.workingTab = jsAt ctxL 0 ∧
      BrowserHelper.readPageType s' (s'.contexts.length - 1) 0 = some "Blank" := by
  have key : ∀ pts1 : TabDataHelper.PageTypes,
      BrowserHelper.newContextFinish ⟨s.contexts ++ [[s.nextId]],
        TabDataHelper.initContextPageTypes pts1, s.workingTab, s.nextId + 1⟩ = .ok s' →
      ∃ ctxL, lastElem s'.contexts = some ctxL ∧ s'.workingTab = jsAt ctxL 0 ∧
        BrowserHelper.readPageType s' (s'.contexts.length - 1) 0 = some "Blank" := by
    intro pts1 hok1
    obtain ⟨hc, ⟨ctxL, hctxL, hwt⟩, hblank⟩ := newContextFinish_ok _ _ hok1
    simp only [] at hc hctxL
    have hlen2 : (s.contexts ++ [[s.nextId]]).length - 1 = s.contexts.length := by simp
    rw [hlen2] at hctxL
    have h2 := jsAt_append_len s.contexts [s.nextId]
    rw [hctxL] at h2
    have hctxeq : ctxL = [s.nextId] := by
      simpa using h2
    subst hctxeq
    refine ⟨[s.nextId], ?_, hwt, hblank⟩
    rw [hc]
    exact lastElem_append_single _ _
  cases pt? with
  | none =>
    unfold BrowserHelper.openNewTabInNewContext at hok
    simp only [] at hok
    exact key _ hok
  | some pt =>
    unfold BrowserHelper.openNewTabInNewContext at hok
    simp only [] at hok
    by_cases hpt : pt ≠ ""
    · rw [if_pos hpt] at hok
      cases h1 : TabDataHelper.updatePageType s.pageTypes (BrowserHelper.workingContextIndex s)
          (BrowserHelper.workingTabIndex s) pt with
      | error m => rw [h1] at hok; exact Except.noConfusion hok
      | ok pts1 =>
        rw [h1] at hok
        simp only [] at hok
        exact key pts1 hok
    · rw [if_neg hpt] at hok
      simp only [] at hok
      exact key _ hok

/-- Claim C5: tracking of the focused tab.  After a successful
`openNewTabInCurrentContext` the working tab is the most recently created
page (last element) of the previous working tab's context, to which a fresh
page was appended; after a successful `openNewTabInNewContext` the working
tab is page 0 of the most recently created context and its recorded page
type is `"Blank"`; after a successful `switchWorkingTab(c, t, ...)` the
working tab is the page at index `t` of context `c`. -/
theorem c5_working_tab_tracking :
    (∀ (s s' : BrowserHelper.BrowserState) (pt : String),
      BrowserHelper.openNewTabInCurrentContext pt s = .ok s' →
      ∃ ci ti, BrowserHelper.workingPos s = some (ci, ti) ∧
        jsAt s'.contexts ci = some (((jsAt s.contexts ci).getD []) ++ [s.nextId]) ∧
        s'.workingTab = lastElem (((jsAt s.contexts ci).getD []) ++ [s.nextId])) ∧
    (∀ (s s' : BrowserHelper.BrowserState) (pt? : Option String),
      BrowserHelper.openNewTabInNewContext pt? s = .ok s' →
      ∃ ctxL, lastElem s'.contexts = some ctxL ∧ s'.workingTab = jsAt ctxL 0 ∧
        BrowserHelper.readPageType s' (s'.contexts.length - 1) 0 = some "Blank") ∧
    (∀ (s s' : BrowserHelper.BrowserState) (c t : Nat) (cur next : String),
      BrowserHelper.switchWorkingTab c t cur next s = .ok s' →
      ∃ ctx, jsAt s.contexts c = some ctx ∧ s'.workingTab = jsAt ctx t ∧
        s'.contexts = s.contexts) :=
  ⟨openCurrent_ok_workingTab, openNew_ok_workingTab, switchTab_ok_workingTab⟩

/-- Witness for C5: a concrete three-step session — open a first context and
tab, open a second tab in it, switch back to tab `[0, 0]`. -/
theorem c5_working_tab_tracking_witness :
    (∃ ctxL, lastElem (⟨[[0]], [[some "Blank"]], some 0, 1⟩ :
        BrowserHelper.BrowserState).contexts = some ctxL ∧
      (⟨[[0]], [[some "Blank"]], some 0, 1⟩ :
        BrowserHelper.BrowserState).workingTab = jsAt ctxL 0 ∧
      BrowserHelper.readPageType ⟨[[0]], [[some "Blank"]], some 0, 1⟩ 0 0 = some "Blank") ∧
    (∃ ci ti, BrowserHelper.workingPos ⟨[[0]], [[some "Blank"]], some 0, 1⟩ = some (ci, ti) ∧
      jsAt ([[0, 1]] : List (List Nat)) ci =
        some (((jsAt ([[0]] : List (List Nat)) ci).getD []) ++ [1]) ∧
      (some 1 : Option Nat) = lastElem (((jsAt ([[0]] : List (List Nat)) ci).getD []) ++ [1])) ∧
    (∃ ctx, jsAt ([[0, 1]] : List (List Nat)) 0 = some ctx ∧
      (some 0 : Option Nat) = jsAt ctx 0 ∧
      ([[0, 1]] : List (List Nat)) = [[0, 1]]) := by
  refine ⟨?_, ?_, ?_⟩
  · have h := c5_working_tab_tracking.2.1 BrowserHelper.initialBrowserState
      ⟨[[0]], [[some "Blank"]], some 0, 1⟩ none rfl
    simpa using h
  · have h := c5_working_tab_tracking.1 ⟨[[0]], [[some "Blank"]], some 0, 1⟩
      ⟨[[0, 1]], [[some "Home", some "Blank"]], some 1, 2⟩ "Home" rfl
    simpa using h
  · have h := c5_working_tab_tracking.2.2 ⟨[[0, 1]], [[some "Home", some "Blank"]], some 1, 2⟩
      ⟨[[0, 1]], [[some "Home", some "Cur"]], some 0, 2⟩ 0 0 "Cur" "Home" rfl
    simpa using h

/-! ### Evaluation lemmas for the switchWorkingTab guards -/

theorem latestTabIndexO_eval (s : BrowserHelper.BrowserState) (c : Nat) (ctx : List Nat)
    (h : jsAt s.contexts c = some ctx) :
    BrowserHelper.latestTabIndexO s (some c) = .ok ((ctx.length : Int) - 1) := by
  unfold BrowserHelper.latestTabIndexO BrowserHelper.getContextO BrowserHelper.getContextE
  simp only []
  rw [h]

theorem pageType_eval_some (pts : TabDataHelper.PageTypes) (c t : Nat)
    (row : List (Option String)) (h : jsAt pts c = some row) :
    TabDataHelper.pageType pts (some c) t = .ok (jsRead row t) := by
  unfold TabDataHelper.pageType TabDataHelper.contextPageTypes
  simp only []
  rw [h]

theorem pageType_eval_none (pts : TabDataHelper.PageTypes) (c t : Nat)
    (h : jsAt pts c = none) :
    TabDataHelper.pageType pts (some c) t = .error "No page types found for context index" := by
  unfold TabDataHelper.pageType TabDataHelper.contextPageTypes
  simp only []
  rw [h]

theorem updatePageType_eval (pts : TabDataHelper.PageTypes) (cw tw : Nat)
    (row : List (Option String)) (v : String) (h : jsAt pts cw = some row) :
    TabDataHelper.updatePageType pts (some cw) (some tw) v =
      .ok (jsSet pts cw (jsWrite row tw v)) := by
  unfold TabDataHelper.updatePageType
  simp only []
  rw [h]

theorem getPageO_eval (s : BrowserHelper.BrowserState) (c t : Nat) (ctx : List Nat) (p : Nat)
    (h1 : jsAt s.contexts c = some ctx) (h2 : jsAt ctx t = some p) :
    BrowserHelper.getPageO s (some c) (some t) = .ok p := by
  unfold BrowserHelper.getPageO BrowserHelper.getContextO BrowserHelper.getContextE
  simp only []
  rw [h1]
  simp only []
  rw [h2]

/-- Claim C4 (amended): `switchWorkingTab(contextIndex, tabIndex,
currentPageType, nextPageType)` fails its step when `contextIndex` exceeds
the latest context index, when `tabIndex` exceeds the latest tab index of
that context, when `[contextIndex, tabIndex]` is already the working tab, or
when the recorded page type of the target tab differs from `nextPageType`;
when all checks pass — and provided the page-type store still has an entry at
the working context's index, which `closeTab` can have removed (claim C3) —
it records `currentPageType` on the previous working tab and makes the tab
at `[contextIndex, tabIndex]` the working tab. -/
theorem c4_switchWorkingTab_spec (s : BrowserHelper.BrowserState) (c t w ti : Nat)
    (cur next : String)
    (hw : BrowserHelper.workingPos s = some (w, ti))
    (hwpts : w < s.pageTypes.length) :
    (BrowserHelper.latestContextIndex s < (c : Int) →
      isOkE (BrowserHelper.switchWorkingTab c t cur next s) = false) ∧
    (∀ lt, BrowserHelper.latestTabIndexO s (some c) = .ok lt → lt < (t : Int) →
      isOkE (BrowserHelper.switchWorkingTab c t cur next s) = false) ∧
    (w = c ∧ ti = t →
      isOkE (BrowserHelper.switchWorkingTab c t cur next s) = false) ∧
    (BrowserHelper.readPageType s c t ≠ some next →
      isOkE (BrowserHelper.switchWorkingTab c t cur next s) = false) ∧
    (¬(BrowserHelper.latestContextIndex s < (c : Int)) →
      (∀ lt, BrowserHelper.latestTabIndexO s (some c) = .ok lt → ¬(lt < (t : Int))) →
      ¬(w = c ∧ ti = t) →
      BrowserHelper.readPageType s c t = some next →
      ∃ row p, jsAt s.pageTypes w = some row ∧
        jsAt ((jsAt s.contexts c).getD []) t = some p ∧
        BrowserHelper.switchWorkingTab c t cur next s =
          .ok ⟨s.contexts, jsSet s.pageTypes w (jsWrite row ti cur), some p, s.nextId⟩) := by
  have hwci : BrowserHelper.workingContextIndex s = some w := by
    unfold BrowserHelper.workingContextIndex
    rw [hw]
    rfl
  have hwti : BrowserHelper.workingTabIndex s = some ti := by
    unfold BrowserHelper.workingTabIndex
    rw [hw]
    rfl
  obtain ⟨wid, hwid, hf, hj⟩ := workingPos_invert s w ti hw
  obtain ⟨ctxW, hctxW, _⟩ := findCtxIdx_some wid s.contexts w hf
  obtain ⟨rowW, hrowW⟩ := jsAt_lt_some s.pageTypes w hwpts
  refine ⟨?_, ?_, ?_, ?_, ?_⟩
  · intro h1
    unfold BrowserHelper.switchWorkingTab
    rw [if_pos h1]
    rfl
  · intro lt hlt hlt2
    unfold BrowserHelper.switchWorkingTab
    by_cases h1 : BrowserHelper.latestContextIndex s < (c : Int)
    · rw [if_pos h1]; rfl
    · rw [if_neg h1, hlt]
      simp only []
      rw [if_pos hlt2]
      rfl
  · rintro ⟨rfl, rfl⟩
    unfold BrowserHelper.switchWorkingTab
    by_cases h1 : BrowserHelper.latestContextIndex s < (w : Int)
    · rw [if_pos h1]; rfl
    · rw [if_neg h1, latestTabIndexO_eval s w ctxW hctxW]
      simp only []
      by_cases h3 : ((ctxW.length : Int) - 1) < (ti : Int)
      · rw [if_pos h3]; rfl
      · rw [if_neg h3, if_pos ⟨hwci, hwti⟩]
        rfl
  · intro hne
    unfold BrowserHelper.switchWorkingTab
    by_cases h1 : BrowserHelper.latestContextIndex s < (c : Int)
    · rw [if_pos h1]; rfl
    · rw [if_neg h1]
      have hclt : c < s.contexts.length := by
        unfold BrowserHelper.latestContextIndex at h1
        omega
      obtain ⟨ctxC, hctxC⟩ := jsAt_lt_some s.contexts c hclt
      rw [latestTabIndexO_eval s c ctxC hctxC]
      simp only []
      by_cases h3 : ((ctxC.length : Int) - 1) < (t : Int)
      · rw [if_pos h3]; rfl
      · rw [if_neg h3]
        by_cases h4 : BrowserHelper.workingContextIndex s = some c ∧
            BrowserHelper.workingTabIndex s = some t
        · rw [if_pos h4]; rfl
        · rw [if_neg h4]
          cases hpts : jsAt s.pageTypes c with
          | none =>
            rw [pageType_eval_none s.pageTypes c t hpts]
            rfl
          | some rowC =>
            rw [pageType_eval_some s.pageTypes c t rowC hpts]
            simp only []
            have hact : jsRead rowC t ≠ some next := by
              intro hcon
              apply hne
              unfold BrowserHelper.readPageType
              rw [hpts]
              exact hcon
            rw [if_pos hact]
            rfl
  · intro h1 h2 h4 hpt
    have hclt : c < s.contexts.length := by
      unfold BrowserHelper.latestContextIndex at h1
      omega
    obtain ⟨ctxC, hctxC⟩ := jsAt_lt_some s.contexts c hclt
    have h3 := h2 _ (latestTabIndexO_eval s c ctxC hctxC)
    have htlt : t < ctxC.length := by omega
    obtain ⟨p, hp⟩ := jsAt_lt_some ctxC t htlt
    cases hpts : jsAt s.pageTypes c with
    | none =>
      exfalso
      unfold BrowserHelper.readPageType at hpt
      rw [hpts] at hpt
      exact Option.noConfusion hpt
    | some rowC =>
      have hread : jsRead rowC t = some next := by
        unfold BrowserHelper.readPageType at hpt
        rw [hpts] at hpt
        exact hpt
      have h4' : ¬(BrowserHelper.workingContextIndex s = some c ∧
          BrowserHelper.workingTabIndex s = some t) := by
        rintro ⟨ha, hb⟩
        apply h4
        rw [hwci] at ha
        rw [hwti] at hb
        exact ⟨Option.some.inj ha, Option.some.inj hb⟩
      refine ⟨rowW, p, hrowW, by rw [hctxC]; exact hp, ?_⟩
      unfold BrowserHelper.switchWorkingTab
      rw [if_neg h1, latestTabIndexO_eval s c ctxC hctxC]
      simp only []
      rw [if_neg h3, if_neg h4']
      rw [pageType_eval_some s.pageTypes c t rowC hpts]
      simp only []
      rw [hread]
      rw [if_neg (show ¬(some next ≠ some next) by simp)]
      rw [hwci, hwti]
      rw [updatePageType_eval s.pageTypes w ti rowW cur hrowW]
      simp only []
      rw [getPageO_eval ⟨s.contexts, jsSet s.pageTypes w (jsWrite rowW ti cur),
        s.workingTab, s.nextId⟩ c t ctxC p hctxC hp]

/-- Counterexample for C4 as stated: a reachable state (produced by the
`closeTab` page-type bug, claim C3) in which all four checks of
`switchWorkingTab(0, 0, "X", "A")` pass — the context and tab exist, the tab
is not the working tab (the working tab is at `[1, 0]`), and the recorded
page type of the target is `"A" = nextPageType` — yet the step fails
(`updatePageType` throws for the working context) and the working tab is not
switched. -/
theorem c4_switchWorkingTab_counterexample :
    BrowserHelper.runBOps [.openNew none, .openNew (some "A"), .openCurrent "C",
        .closeOneTab 1 0] BrowserHelper.initialBrowserState =
      .ok ⟨[[0], [2]], [[some "A"]], some 2, 3⟩ ∧
    ¬(BrowserHelper.latestContextIndex ⟨[[0], [2]], [[some "A"]], some 2, 3⟩ < (0 : Int)) ∧
    BrowserHelper.latestTabIndexO ⟨[[0], [2]], [[some "A"]], some 2, 3⟩ (some 0) = .ok 0 ∧
    BrowserHelper.workingPos ⟨[[0], [2]], [[some "A"]], some 2, 3⟩ = some (1, 0) ∧
    BrowserHelper.readPageType ⟨[[0], [2]], [[some "A"]], some 2, 3⟩ 0 0 = some "A" ∧
    BrowserHelper.switchWorkingTab 0 0 "X" "A" ⟨[[0], [2]], [[some "A"]], some 2, 3⟩ =
      .error ("No page types found for context index", ⟨[[0], [2]], [[some "A"]], some 2, 3⟩) :=
  ⟨rfl, by decide, rfl, rfl, rfl, rfl⟩

/-- Witness for C4 (amended): a two-context state where every check passes
and the switch succeeds, recording `"X"` on the previous working tab and
focusing tab `[1, 0]`. -/
theorem c4_switchWorkingTab_spec_witness :
    ∃ row p, jsAt ([[some "A"], [some "B"]] : TabDataHelper.PageTypes) 0 = some row ∧
      jsAt ((jsAt ([[0], [1]] : List (List Nat)) 1).getD []) 0 = some p ∧
      BrowserHelper.switchWorkingTab 1 0 "X" "B"
          ⟨[[0], [1]], [[some "A"], [some "B"]], some 0, 2⟩ =
        .ok ⟨[[0], [1]], jsSet [[some "A"], [some "B"]] 0 (jsWrite row 0 "X"), some p, 2⟩ :=
  (c4_switchWorkingTab_spec ⟨[[0], [1]], [[some "A"], [some "B"]], some 0, 2⟩ 1 0 0 0
      "X" "B" rfl (by decide)).2.2.2.2
    (by decide)
    (by
      intro lt hlt
      have h0 : (Except.ok 0 : Except String Int) = .ok lt := hlt
      cases h0
      decide)
    (by decide)
    rfl

/-! ### Lemmas about the step-sequence chain -/

namespace StepSequenceHelper

/-- The registration stack has at most one `testFilePath` row (so
`getTestCallRowInStack` cannot throw on it once one row matches). -/
def atMostOneTestRow (ms? : Option (List Row)) : Bool :=
  match ms? with
  | none => true
  | some ms => decide ((ms.filter testFilePathTest).length ≤ 1)

/-- The error's stack cannot make the rewriting throw: either it is absent,
or it does not mention the helper module, or it has exactly one
`testFilePath` row. -/
def stackSafe (helperUrl : Row) (e : JsError) : Bool :=
  match e.stack with
  | none => true
  | some es => !stackIncludes es helperUrl || decide ((es.filter testFilePathTest).length = 1)

end StepSequenceHelper

theorem getTestCallRowInStack_of_filter (l : List StepSequenceHelper.Row)
    (r : StepSequenceHelper.Row)
    (h : l.filter StepSequenceHelper.testFilePathTest = [r]) :
    StepSequenceHelper.getTestCallRowInStack l = .ok r := by
  unfold StepSequenceHelper.getTestCallRowInStack
  rw [h]

theorem any_of_filter_single (l : List StepSequenceHelper.Row) (r : StepSequenceHelper.Row)
    (h : l.filter StepSequenceHelper.testFilePathTest = [r]) :
    l.any StepSequenceHelper.testFilePathTest = true := by
  have hr : r ∈ l.filter StepSequenceHelper.testFilePathTest := by
    rw [h]
    simp
  rw [List.any_eq_true]
  obtain ⟨hm, hp⟩ := List.mem_filter.mp hr
  exact ⟨r, hm, hp⟩

theorem filter_eq_single_of_any_le_one (l : List StepSequenceHelper.Row)
    (hany : l.any StepSequenceHelper.testFilePathTest = true)
    (hle : (l.filter StepSequenceHelper.testFilePathTest).length ≤ 1) :
    ∃ r, l.filter StepSequenceHelper.testFilePathTest = [r] := by
  obtain ⟨x, hx, hpx⟩ := List.any_eq_true.mp hany
  have hmem : x ∈ l.filter StepSequenceHelper.testFilePathTest :=
    List.mem_filter.mpr ⟨hx, hpx⟩
  have hpos : 0 < (l.filter StepSequenceHelper.testFilePathTest).length :=
    List.length_pos.mpr (List.ne_nil_of_mem hmem)
  have h1 : (l.filter StepSequenceHelper.testFilePathTest).length = 1 := by omega
  exact List.length_eq_one.mp h1

theorem stackIncludes_rewriteStack (hU : StepSequenceHelper.Row)
    (es : List StepSequenceHelper.Row) (pr sr : StepSequenceHelper.Row) :
    StepSequenceHelper.stackIncludes (StepSequenceHelper.rewriteStack hU es pr sr) hU = false := by
  unfold StepSequenceHelper.stackIncludes StepSequenceHelper.rewriteStack
  cases hany : (((StepSequenceHelper.replaceFirstEq es pr sr).filter
      fun r => !StepSequenceHelper.containsRow hU r).any
        fun r => StepSequenceHelper.containsRow hU r) with
  | false => rfl
  | true =>
    exfalso
    obtain ⟨x, hx, hpx⟩ := List.any_eq_true.mp hany
    obtain ⟨_, hfilt⟩ := List.mem_filter.mp hx
    rw [hpx] at hfilt
    exact Bool.noConfusion hfilt

theorem mem_replaceFirstEq (l : List StepSequenceHelper.Row)
    (target repl : StepSequenceHelper.Row) (h : target ∈ l) :
    repl ∈ StepSequenceHelper.replaceFirstEq l target repl := by
  induction l with
  | nil => simp at h
  | cons r rs ih =>
    by_cases hr : r = target
    · unfold StepSequenceHelper.replaceFirstEq
      rw [if_pos hr]
      exact List.mem_cons_self _ _
    · unfold StepSequenceHelper.replaceFirstEq
      rw [if_neg hr]
      have hmem : target ∈ rs := by
        cases List.mem_cons.mp h with
        | inl heq => exact absurd heq.symm hr
        | inr hm => exact hm
      exact List.mem_cons_of_mem _ (ih hmem)

theorem catchCallback_err_safe (hU : StepSequenceHelper.Row)
    (ms? : Option (List StepSequenceHelper.Row)) (e : StepSequenceHelper.JsError)
    (h1 : StepSequenceHelper.atMostOneTestRow ms? = true)
    (h2 : StepSequenceHelper.stackSafe hU e = true) :
    ∃ e', StepSequenceHelper.catchCallback hU ms? (.err e) = .rejected (.err e') ∧
      e'.id = e.id ∧ StepSequenceHelper.stackSafe hU e' = true := by
  unfold StepSequenceHelper.catchCallback
  simp only []
  cases hes : e.stack with
  | none => exact ⟨e, rfl, rfl, h2⟩
  | some es =>
    cases hms : ms? with
    | none => exact ⟨e, rfl, rfl, h2⟩
    | some ms =>
      simp only []
      by_cases hg : (StepSequenceHelper.stackIncludes es hU &&
          ms.any StepSequenceHelper.testFilePathTest) = true
      · rw [if_pos hg]
        rw [Bool.and_eq_true] at hg
        obtain ⟨hinc, hany⟩ := hg
        have hlen1 : (es.filter StepSequenceHelper.testFilePathTest).length = 1 := by
          unfold StepSequenceHelper.stackSafe at h2
          rw [hes] at h2
          simp only [] at h2
          rw [hinc] at h2
          simpa using h2
        obtain ⟨pr, hpr⟩ := List.length_eq_one.mp hlen1
        have hle : (ms.filter StepSequenceHelper.testFilePathTest).length ≤ 1 := by
          unfold StepSequenceHelper.atMostOneTestRow at h1
          rw [hms] at h1
          simp only [] at h1
          simpa using h1
        obtain ⟨sr, hsr⟩ := filter_eq_single_of_any_le_one ms hany hle
        rw [getTestCallRowInStack_of_filter ms sr hsr]
        simp only []
        rw [getTestCallRowInStack_of_filter es pr hpr]
        refine ⟨⟨e.id, some (StepSequenceHelper.rewriteStack hU es pr sr)⟩, rfl, rfl, ?_⟩
        unfold StepSequenceHelper.stackSafe
        simp only []
        rw [stackIncludes_rewriteStack]
        rfl
      · rw [if_neg hg]
        exact ⟨e, rfl, rfl, h2⟩

theorem stepLink_ok (hU : StepSequenceHelper.Row) (a : StepSequenceHelper.AddedStep)
    (h : a.behavior = .ok) :
    StepSequenceHelper.stepLink hU .resolved a = (.resolved, true) := by
  unfold StepSequenceHelper.stepLink
  rw [h]

theorem stepLink_throwErr (hU : StepSequenceHelper.Row) (a : StepSequenceHelper.AddedStep)
    (e : StepSequenceHelper.JsError) (h : a.behavior = .throwErr e) :
    StepSequenceHelper.stepLink hU .resolved a =
      (StepSequenceHelper.catchCallback hU a.myStack (.err e), true) := by
  unfold StepSequenceHelper.stepLink
  rw [h]

theorem stepLink_throwNonErr (hU : StepSequenceHelper.Row) (a : StepSequenceHelper.AddedStep)
    (h : a.behavior = .throwNonErr) :
    StepSequenceHelper.stepLink hU .resolved a = (.resolved, true) := by
  unfold StepSequenceHelper.stepLink
  rw [h]
  rfl

theorem runChainFrom_cons (hU : StepSequenceHelper.Row) (st : StepSequenceHelper.ChainOutcome)
    (a : StepSequenceHelper.AddedStep) (rest : List StepSequenceHelper.AddedStep) :
    StepSequenceHelper.runChainFrom hU st (a :: rest) =
      ((StepSequenceHelper.runChainFrom hU (StepSequenceHelper.stepLink hU st a).1 rest).1,
        (StepSequenceHelper.stepLink hU st a).2 ::
          (StepSequenceHelper.runChainFrom hU (StepSequenceHelper.stepLink hU st a).1 rest).2) :=
  rfl

theorem runChainFrom_ok_all (hU : StepSequenceHelper.Row) :
    ∀ l : List StepSequenceHelper.AddedStep, (∀ p ∈ l, p.behavior = .ok) →
      StepSequenceHelper.runChainFrom hU .resolved l =
        (.resolved, List.replicate l.length true) := by
  intro l
  induction l with
  | nil => intro _; rfl
  | cons a t ih =>
    intro h
    unfold StepSequenceHelper.runChainFrom
    rw [stepLink_ok hU a (h a (List.mem_cons_self a t))]
    simp only []
    rw [ih (fun p hp => h p (List.mem_cons_of_mem a hp))]
    simp [List.replicate_succ]

theorem runChainFrom_prefix_ok (hU : StepSequenceHelper.Row)
    (rest : List StepSequenceHelper.AddedStep) :
    ∀ pre : List StepSequenceHelper.AddedStep, (∀ p ∈ pre, p.behavior = .ok) →
      StepSequenceHelper.runChainFrom hU .resolved (pre ++ rest) =
        ((StepSequenceHelper.runChainFrom hU .resolved rest).1,
          List.replicate pre.length true ++
            (StepSequenceHelper.runChainFrom hU .resolved rest).2) := by
  intro pre
  induction pre with
  | nil => intro _; simp
  | cons a t ih =>
    intro h
    show StepSequenceHelper.runChainFrom hU .resolved (a :: (t ++ rest)) = _
    rw [runChainFrom_cons, stepLink_ok hU a (h a (List.mem_cons_self a t))]
    simp only []
    rw [ih (fun p hp => h p (List.mem_cons_of_mem a hp))]
    simp [List.replicate_succ]

theorem runChainFrom_rejected_err (hU : StepSequenceHelper.Row) :
    ∀ (post : List StepSequenceHelper.AddedStep) (e : StepSequenceHelper.JsError),
      (∀ p ∈ post, StepSequenceHelper.atMostOneTestRow p.myStack = true) →
      StepSequenceHelper.stackSafe hU e = true →
      ∃ e', StepSequenceHelper.runChainFrom hU (.rejected (.err e)) post =
        (.rejected (.err e'), List.replicate post.length false) ∧ e'.id = e.id ∧
        StepSequenceHelper.stackSafe hU e' = true := by
  intro post
  induction post with
  | nil => intro e _ hsafe; exact ⟨e, rfl, rfl, hsafe⟩
  | cons b t ih =>
    intro e hms hsafe
    obtain ⟨e₁, hc, hid1, hsafe1⟩ :=
      catchCallback_err_safe hU b.myStack e (hms b (List.mem_cons_self b t)) hsafe
    obtain ⟨e', hq, hid2, hsafe2⟩ :=
      ih e₁ (fun p hp => hms p (List.mem_cons_of_mem b hp)) hsafe1
    refine ⟨e', ?_, hid2.trans hid1, hsafe2⟩
    unfold StepSequenceHelper.runChainFrom
    show ((StepSequenceHelper.runChainFrom hU
        (StepSequenceHelper.catchCallback hU b.myStack (.err e)) t).1,
      false :: (StepSequenceHelper.runChainFrom hU
        (StepSequenceHelper.catchCallback hU b.myStack (.err e)) t).2) = _
    rw [hc, hq]
    simp [List.replicate_succ]

/-- Claim C1 (amended): steps run strictly in registration order; when every
step added before `a` succeeds and `a`'s callback rejects with the `Error`
`e`, the callbacks that run are exactly those of the prefix and `a`, no later
step's callback runs, and awaiting `stepSequence` rejects with that same
error object (its stack possibly rewritten) — provided the stack-rewriting
catch callbacks cannot themselves throw, i.e. each involved registration
stack has at most one `testFilePath` row and the error's stack either lacks
the helper URL or has exactly one `testFilePath` row. -/
theorem c1_sequential_error_propagation (hU : StepSequenceHelper.Row)
    (pre post : List StepSequenceHelper.AddedStep) (a : StepSequenceHelper.AddedStep)
    (e : StepSequenceHelper.JsError)
    (hpre : ∀ p ∈ pre, p.behavior = .ok)
    (ha : a.behavior = .throwErr e)
    (hms : ∀ p ∈ a :: post, StepSequenceHelper.atMostOneTestRow p.myStack = true)
    (hsafe : StepSequenceHelper.stackSafe hU e = true) :
    ∃ e', StepSequenceHelper.runChain hU (pre ++ a :: post) =
      (.rejected (.err e'),
        List.replicate pre.length true ++ true :: List.replicate post.length false) ∧
      e'.id = e.id := by
  obtain ⟨e₁, hc, hid1, hsafe1⟩ :=
    catchCallback_err_safe hU a.myStack e (hms a (List.mem_cons_self a post)) hsafe
  obtain ⟨e', hq, hid2, _⟩ := runChainFrom_rejected_err hU post e₁
    (fun p hp => hms p (List.mem_cons_of_mem a hp)) hsafe1
  refine ⟨e', ?_, hid2.trans hid1⟩
  unfold StepSequenceHelper.runChain
  rw [runChainFrom_prefix_ok hU (a :: post) pre hpre]
  have hrun : StepSequenceHelper.runChainFrom hU .resolved (a :: post) =
      (.rejected (.err e'), true :: List.replicate post.length false) := by
    unfold StepSequenceHelper.runChainFrom
    rw [stepLink_throwErr hU a e ha]
    simp only []
    rw [hc, hq]
  rw [hrun]

/-- Claim C10: a step rejecting with a non-`Error` value is swallowed by the
catch callback — the chain resolves, and all later (succeeding) steps'
callbacks still execute. -/
theorem c10_non_error_swallowed (hU : StepSequenceHelper.Row)
    (pre post : List StepSequenceHelper.AddedStep) (a : StepSequenceHelper.AddedStep)
    (hpre : ∀ p ∈ pre, p.behavior = .ok)
    (ha : a.behavior = .throwNonErr)
    (hpost : ∀ p ∈ post, p.behavior = .ok) :
    StepSequenceHelper.runChain hU (pre ++ a :: post) =
      (.resolved,
        List.replicate pre.length true ++ true :: List.replicate post.length true) := by
  unfold StepSequenceHelper.runChain
  rw [runChainFrom_prefix_ok hU (a :: post) pre hpre]
  have hrun : StepSequenceHelper.runChainFrom hU .resolved (a :: post) =
      (.resolved, true :: List.replicate post.length true) := by
    unfold StepSequenceHelper.runChainFrom
    rw [stepLink_throwNonErr hU a ha]
    simp only []
    rw [runChainFrom_ok_all hU post hpost]
  rw [hrun]

/-- Claim C2 (amended): when a step's callback rejects with an `Error` whose
stack mentions the helper module, the error's stack has exactly one
`testFilePath` row (`promiseRow`), the stack captured at the `addStep` call
site has exactly one such row (`stepRow`), and `stepRow` itself does not
mention the helper module, then the error propagated from the chain is the
same error with its stack rewritten: `promiseRow` replaced by `stepRow`
(pointing at the originating test line, which occurs in the result) and
every row mentioning the helper module removed. -/
theorem c2_stack_rewrite (hU : StepSequenceHelper.Row) (e : StepSequenceHelper.JsError)
    (es ms : List StepSequenceHelper.Row) (pr sr : StepSequenceHelper.Row)
    (hes : e.stack = some es)
    (hinc : StepSequenceHelper.stackIncludes es hU = true)
    (hesf : es.filter StepSequenceHelper.testFilePathTest = [pr])
    (hmsf : ms.filter StepSequenceHelper.testFilePathTest = [sr])
    (hsr : StepSequenceHelper.containsRow hU sr = false) :
    (StepSequenceHelper.runChain hU [⟨.throwErr e, some ms⟩]).1 =
      .rejected (.err ⟨e.id, some (StepSequenceHelper.rewriteStack hU es pr sr)⟩) ∧
    sr ∈ StepSequenceHelper.rewriteStack hU es pr sr ∧
    ∀ r ∈ StepSequenceHelper.rewriteStack hU es pr sr,
      StepSequenceHelper.containsRow hU r = false := by
  have hcc : StepSequenceHelper.catchCallback hU (some ms) (.err e) =
      .rejected (.err ⟨e.id, some (StepSequenceHelper.rewriteStack hU es pr sr)⟩) := by
    unfold StepSequenceHelper.catchCallback
    simp only []
    rw [hes]
    simp only []
    rw [if_pos (show (StepSequenceHelper.stackIncludes es hU &&
        ms.any StepSequenceHelper.testFilePathTest) = true by
      rw [Bool.and_eq_true]
      exact ⟨hinc, any_of_filter_single ms sr hmsf⟩)]
    rw [getTestCallRowInStack_of_filter ms sr hmsf]
    simp only []
    rw [getTestCallRowInStack_of_filter es pr hesf]
  refine ⟨hcc, ?_, ?_⟩
  · have hpr_mem : pr ∈ es := by
      have : pr ∈ es.filter StepSequenceHelper.testFilePathTest := by
        rw [hesf]
        simp
      exact (List.mem_filter.mp this).1
    unfold StepSequenceHelper.rewriteStack
    refine List.mem_filter.mpr ⟨mem_replaceFirstEq es pr sr hpr_mem, ?_⟩
    rw [hsr]
    rfl
  · intro r hm
    unfold StepSequenceHelper.rewriteStack at hm
    obtain ⟨_, hf⟩ := List.mem_filter.mp hm
    cases hcr : StepSequenceHelper.containsRow hU r
    · rfl
    · rw [hcr] at hf
      exact Bool.noConfusion hf

/-- Witness for C1 (amended): a chain of three steps where the middle one
throws an `Error` with no stack — the first two callbacks run, the third does
not, and the chain rejects with the same error (id `7`). -/
theorem c1_sequential_error_propagation_witness :
    ∃ e', StepSequenceHelper.runChain "/h.ts".data
        ([⟨.ok, none⟩] ++ ⟨.throwErr ⟨7, none⟩, none⟩ :: [⟨.ok, none⟩]) =
      (.rejected (.err e'),
        List.replicate 1 true ++ true :: List.replicate 1 false) ∧
      e'.id = 7 :=
  c1_sequential_error_propagation "/h.ts".data [⟨.ok, none⟩] [⟨.ok, none⟩]
    ⟨.throwErr ⟨7, none⟩, none⟩ ⟨7, none⟩ (by decide) rfl (by decide) rfl

/-- Counterexample for C1 as stated: the failing step's `Error` mentions the
helper module but its stack has no `testFilePath` row, while the registration
stack has one; `getTestCallRowInStack` then throws inside the catch callback
and the chain rejects with that fresh error, not with the step's error. -/
theorem c1_counterexample_internal_error :
    StepSequenceHelper.runChain "/x/stepSequenceHelper.ts".data
      [⟨.throwErr ⟨0, some ["    at f (/x/stepSequenceHelper.ts:9:9)".data]⟩,
        some ["    at /tests/login.spec.ts:12:7".data]⟩] =
      (.rejected .internal, [true]) := by
  rfl

/-- Witness for C2 (amended): a concrete error stack with one helper row and
one spec row; the propagated stack replaces the spec row of the error by the
registration site's spec row and drops the helper row. -/
theorem c2_stack_rewrite_witness :
    (StepSequenceHelper.runChain "/x/helper.ts".data
        [⟨.throwErr ⟨3, some ["    at f (/x/helper.ts:3:5)".data,
            "    at /t/a.spec.ts:4:2".data]⟩,
          some ["    at /t/b.spec.ts:9:1".data]⟩]).1 =
      .rejected (.err ⟨3, some (StepSequenceHelper.rewriteStack "/x/helper.ts".data
        ["    at f (/x/helper.ts:3:5)".data, "    at /t/a.spec.ts:4:2".data]
        "    at /t/a.spec.ts:4:2".data "    at /t/b.spec.ts:9:1".data)⟩) ∧
    "    at /t/b.spec.ts:9:1".data ∈ StepSequenceHelper.rewriteStack "/x/helper.ts".data
      ["    at f (/x/helper.ts:3:5)".data, "    at /t/a.spec.ts:4:2".data]
      "    at /t/a.spec.ts:4:2".data "    at /t/b.spec.ts:9:1".data ∧
    ∀ r ∈ StepSequenceHelper.rewriteStack "/x/helper.ts".data
        ["    at f (/x/helper.ts:3:5)".data, "    at /t/a.spec.ts:4:2".data]
        "    at /t/a.spec.ts:4:2".data "    at /t/b.spec.ts:9:1".data,
      StepSequenceHelper.containsRow "/x/helper.ts".data r = false :=
  c2_stack_rewrite "/x/helper.ts".data
    ⟨3, some ["    at f (/x/helper.ts:3:5)".data, "    at /t/a.spec.ts:4:2".data]⟩
    ["    at f (/x/helper.ts:3:5)".data, "    at /t/a.spec.ts:4:2".data]
    ["    at /t/b.spec.ts:9:1".data]
    "    at /t/a.spec.ts:4:2".data "    at /t/b.spec.ts:9:1".data
    rfl rfl rfl rfl rfl

/-- Counterexample for C2 as stated: the error's stack mentions the helper
module and the registration stack has a spec row — the claim's hypotheses —
but the error's stack has no spec row, so `getTestCallRowInStack` throws and
the propagated rejection is the fresh internal error, not the original error
with a rewritten stack. -/
theorem c2_counterexample_no_promise_row :
    (StepSequenceHelper.runChain "/y/seq.ts".data
        [⟨.throwErr ⟨5, some ["    at g (/y/seq.ts:2:2)".data]⟩,
          some ["    at /t/c.spec.ts:8:8".data]⟩]).1 =
      .rejected .internal := by
  rfl

/-- Witness for C10: a three-step chain whose middle step rejects with a
non-`Error` value; all three callbacks run and the chain resolves. -/
theorem c10_non_error_swallowed_witness :
    StepSequenceHelper.runChain "/h2.ts".data
        ([⟨.ok, none⟩] ++ ⟨.throwNonErr, none⟩ :: [⟨.ok, none⟩]) =
      (.resolved, List.replicate 1 true ++ true :: List.replicate 1 true) :=
  c10_non_error_swallowed "/h2.ts".data [⟨.ok, none⟩] [⟨.ok, none⟩]
    ⟨.throwNonErr, none⟩ (by decide) rfl (by decide)
